import Mathlib

/-!
Shallow embedding of the DAT2LTA85 converter (src/dat2lta85.py) and proofs of
the specification claims.  Text (file names, texture names, object names) is
modelled as lists of Unicode code points (`List Nat`); byte streams are
modelled as lists of byte values (`List Nat`).  Floating-point arithmetic of
the texture-basis solver is modelled over the real numbers.
-/

/-- Code points of a Lean string literal (used to state concrete instances). -/
def strCodes (s : String) : List Nat := s.data.map Char.toNat

/-- Python `str.upper` on one code point, restricted to ASCII letters
(mirrors `ch.upper()` in `st_gethash_ic`, where occluder names are ASCII). -/
def py_upper_code (c : Nat) : Nat := if 97 ≤ c ∧ c ≤ 122 then c - 32 else c

/-- Python `str.lower` on one code point, restricted to ASCII letters. -/
def py_lower_code (c : Nat) : Nat := if 65 ≤ c ∧ c ≤ 90 then c + 32 else c

/-- Python `s.lower()` over code points. -/
def py_lower (s : List Nat) : List Nat := s.map py_lower_code

/-- Python `s.upper()` over code points. -/
def py_upper (s : List Nat) : List Nat := s.map py_upper_code

/-- Whitespace test used by Python `str.strip()` (ASCII whitespace). -/
def py_isspace (c : Nat) : Bool := c = 32 ∨ c = 9 ∨ c = 10 ∨ c = 13 ∨ c = 11 ∨ c = 12

/-- Python `s.strip()` over code points: drop whitespace at both ends. -/
def py_strip (s : List Nat) : List Nat :=
  ((s.dropWhile py_isspace).reverse.dropWhile py_isspace).reverse

/-- Python `s.startswith(p)` over code points. -/
def py_startswith (s p : List Nat) : Bool := p.isPrefixOf s

/-- One step of the rolling hash of `st_gethash_ic` (src/dat2lta85.py:40-44):
`c = ch.upper(); val = ord(c) - ord('A'); n = (n*29 + (val & 0xFFFFFFFF)) & 0xFFFFFFFF`.
`val` is a Python (signed, unbounded) integer, so the masking is arithmetic
mod 2^32 of a possibly negative value. -/
def st_gethash_step (n c : Nat) : Nat :=
  (n * 29 + (((py_upper_code c : Int) - 65) % 4294967296).toNat) % 4294967296

/-- `st_GetHashCode_ic` (src/dat2lta85.py:35-45): case-insensitive rolling hash. -/
def st_gethash_ic (s : List Nat) : Nat := s.foldl st_gethash_step 0

/-- Texture-effect free embedding of `get_dtx_texture_size`
(src/dat2lta85.py:869-908).  The filesystem search in the non-reserved branch
is an external collaborator (it opens `.spr`/`.dtx` files); it is abstracted
as the parameter `fsLookup`.  The reserved-prefix branch
(`tex_path.lower().startswith("lightanim") | tex_path.lower().startswith("default")`)
returns `(0, 0)` without consulting it. -/
def get_dtx_texture_size (fsLookup : List Nat → Nat × Nat) (tex_path : List Nat) : Nat × Nat :=
  if py_startswith (py_lower tex_path) (strCodes ("lightanim"))
     || py_startswith (py_lower tex_path) (strCodes ("default")) then (0, 0)
  else fsLookup tex_path

/-- Texture-name normalization in `export_rendernodes_to_lta`
(src/dat2lta85.py:1355-1360): `t0 = tex0.strip(); if t0 == "": tex0 = "Default"`. -/
def normalizeTexName (tex0 : List Nat) : List Nat :=
  if py_strip tex0 = [] then strCodes ("Default") else tex0

/-- Texel size attached to a section's texture slot
(src/dat2lta85.py:1364): `get_dtx_texture_size(tex0, ...)` after normalization. -/
def sectionTexSize (fsLookup : List Nat → Nat × Nat) (tex0 : List Nat) : Nat × Nat :=
  get_dtx_texture_size fsLookup (normalizeTexName tex0)

/-- World-space vector (class `Vec3`, src/dat2lta85.py:48-64), over ℝ. -/
structure Vec3 where
  x : ℝ
  y : ℝ
  z : ℝ

/-- Texture coordinate (class `Vec2`, src/dat2lta85.py:78-87), over ℝ. -/
structure Vec2 where
  x : ℝ
  y : ℝ

noncomputable def v3add (a b : Vec3) : Vec3 := ⟨a.x + b.x, a.y + b.y, a.z + b.z⟩

noncomputable def v3sub (a b : Vec3) : Vec3 := ⟨a.x - b.x, a.y - b.y, a.z - b.z⟩

noncomputable def v3smul (r : ℝ) (a : Vec3) : Vec3 := ⟨r * a.x, r * a.y, r * a.z⟩

noncomputable def v3dot (a b : Vec3) : ℝ := a.x * b.x + a.y * b.y + a.z * b.z

/-- `np.cross` for 3-vectors. -/
noncomputable def v3cross (a b : Vec3) : Vec3 :=
  ⟨a.y * b.z - a.z * b.y, a.z * b.x - a.x * b.z, a.x * b.y - a.y * b.x⟩

/-- `np.linalg.norm` for 3-vectors. -/
noncomputable def v3norm (a : Vec3) : ℝ := Real.sqrt (a.x * a.x + a.y * a.y + a.z * a.z)

/-- The signed-area helper inside `barycentric` (src/dat2lta85.py:918). -/
noncomputable def uvArea (a b c : ℝ × ℝ) : ℝ :=
  (b.1 - a.1) * (c.2 - a.2) - (c.1 - a.1) * (b.2 - a.2)

/-- `barycentric` (src/dat2lta85.py:917-925): barycentric coordinates of `p`
with respect to the UV triangle `(p0, p1, p2)`; a degenerate UV triangle
(area below `1e-10`) collapses to `(1, 0, 0)`. -/
noncomputable def barycentric (p0 p1 p2 p : ℝ × ℝ) : ℝ × ℝ × ℝ :=
  let n := uvArea p0 p1 p2
  if |n| < 1 / 10 ^ 10 then (1, 0, 0)
  else
    let u := uvArea p1 p2 p / n
    let v := uvArea p2 p0 p / n
    (u, v, 1 - u - v)

/-- Combination `u*p0 + v*p1 + w*p2` of world points by barycentric weights
(src/dat2lta85.py:942-944). -/
noncomputable def baryCombine (w : ℝ × ℝ × ℝ) (p0 p1 p2 : Vec3) : Vec3 :=
  v3add (v3smul w.1 p0) (v3add (v3smul w.2.1 p1) (v3smul w.2.2 p2))

/-- `generate_opq_exact` (src/dat2lta85.py:913-969): texture-space basis
(origin, P axis, Q axis) for one triangle, modelled over ℝ.  When the texel
width or height is zero it short-circuits to the fixed identity-like basis
before any barycentric computation. -/
noncomputable def generate_opq_exact (v0 v1 v2 : Vec3) (uv0 uv1 uv2 : Vec2)
    (width height : ℝ) : Vec3 × Vec3 × Vec3 :=
  if width = 0 ∨ height = 0 then (⟨0, 0, 0⟩, ⟨1, 0, 0⟩, ⟨0, 0, 1⟩)
  else
    let t0 : ℝ × ℝ := (uv0.x, -uv0.y)
    let t1 : ℝ × ℝ := (uv1.x, -uv1.y)
    let t2 : ℝ × ℝ := (uv2.x, -uv2.y)
    let bc_o := barycentric t0 t1 t2 (0, 0)
    let bc_p := barycentric t0 t1 t2 (1, 0)
    let bc_q := barycentric t0 t1 t2 (0, 1)
    let O := baryCombine bc_o v0 v1 v2
    let P := v3sub (baryCombine bc_p v0 v1 v2) O
    let Q := v3sub (baryCombine bc_q v0 v1 v2) O
    let tp0 := v3norm P
    let tq0 := v3norm Q
    let tp := if tp0 > 1 / 10 ^ 8 then 1 / (tp0 / width) else 1
    let tq := if tq0 > 1 / 10 ^ 8 then 1 / (tq0 / height) else 1
    let Pd := if v3norm P > 1 / 10 ^ 8 then v3smul (1 / v3norm P) P else ⟨1, 0, 0⟩
    let Qd := if v3norm Q > 1 / 10 ^ 8 then v3smul (1 / v3norm Q) Q else ⟨0, 1, 0⟩
    let R := v3cross Qd Pd
    let Pn := v3cross R Qd
    let Qn := v3cross Pd R
    let Pn := v3smul (1 / v3norm Pn) Pn
    let Qn := v3smul (1 / v3norm Qn) Qn
    let pscale := 1 / v3dot Pd Pn
    let qscale := 1 / v3dot Qd Qn
    (O, v3smul (tp * pscale) Pn, v3smul (tq * qscale * (-1)) Qn)

/-- Decoded value of one world-object property (src/dat2lta85.py:447-466).
The claims only distinguish string-typed values (`isinstance(value, str)`)
from all other decoded payloads (vector, color, real, bool, longint,
rotation, skipped raw data), so non-string payloads share one constructor. -/
inductive PValue where
  | pstr : List Nat → PValue
  | pother : PValue

/-- One decoded property: name and value (src/dat2lta85.py:442-466). -/
structure WProp where
  name : List Nat
  value : PValue

/-- One decoded `WorldObject`: type tag and property list
(src/dat2lta85.py:437-441). -/
structure WObject where
  otype : List Nat
  props : List WProp

/-- The string value of a property that qualifies for the
`DynamicOccluderVolume` occluder-name collection (src/dat2lta85.py:479-481):
object type `DynamicOccluderVolume`, property name starting with
`OccluderName`, string value, non-empty. -/
def occPropValue (otype : List Nat) (p : WProp) : Option (List Nat) :=
  match p.value with
  | .pstr v =>
    if otype = strCodes ("DynamicOccluderVolume") ∧
       py_startswith p.name (strCodes ("OccluderName")) = true ∧ v ≠ [] then some v else none
  | .pother => none

/-- Insert-if-absent into the occluder name table
(`if value not in occluder_names: occluder_names[value] = st_gethash_ic(value)`,
src/dat2lta85.py:480-481), dictionaries modelled as association lists. -/
def occTblInsert (tbl : List (List Nat × Nat)) (v : List Nat) : List (List Nat × Nat) :=
  if (tbl.lookup v).isSome then tbl else tbl ++ [(v, st_gethash_ic v)]

/-- Effect of one property of an object with type `ot` on the occluder table
(inner loop body of `read_world_objects`, src/dat2lta85.py:478-481). -/
def occPropStep (ot : List Nat) (tbl : List (List Nat × Nat)) (p : WProp) :
    List (List Nat × Nat) :=
  match occPropValue ot p with
  | some v => occTblInsert tbl v
  | none => tbl

/-- Process the properties of one world object for the occluder table. -/
def occNamesOfObj (tbl : List (List Nat × Nat)) (o : WObject) : List (List Nat × Nat) :=
  o.props.foldl (occPropStep o.otype) tbl

/-- The occluder name table built by `read_world_objects`
(src/dat2lta85.py:433, 479-481). -/
def occluderNameTable (objs : List WObject) : List (List Nat × Nat) :=
  objs.foldl occNamesOfObj []

/-- Continuation-byte test for UTF-8 decoding. -/
def utf8IsCont (b : Nat) : Bool := 128 ≤ b ∧ b ≤ 191

/-- Allowed second byte after a 3-byte lead (excludes overlongs and
surrogates, as CPython's UTF-8 codec does). -/
def utf8Cont3ok (b b2 : Nat) : Bool :=
  if b = 224 then 160 ≤ b2 ∧ b2 ≤ 191
  else if b = 237 then 128 ≤ b2 ∧ b2 ≤ 159
  else 128 ≤ b2 ∧ b2 ≤ 191

/-- Allowed second byte after a 4-byte lead (excludes overlongs and
code points above U+10FFFF, as CPython's UTF-8 codec does). -/
def utf8Cont4ok (b b2 : Nat) : Bool :=
  if b = 240 then 144 ≤ b2 ∧ b2 ≤ 191
  else if b = 244 then 128 ≤ b2 ∧ b2 ≤ 143
  else 128 ≤ b2 ∧ b2 ≤ 191

/-- Python `bytes.decode("utf-8", errors="ignore")`, auxiliary recursion on a
fuel counter (one unit of fuel covers at least one consumed byte, so
`fuel = length` never exhausts): total decoding of a byte list to code points;
an ill-formed subsequence (including one truncated at end of input) is dropped
and decoding continues after it. -/
def utf8DecodeIgnoreAux : Nat → List Nat → List Nat
  | 0, _ => []
  | _ + 1, [] => []
  | fuel + 1, b :: rest =>
    if b < 128 then b :: utf8DecodeIgnoreAux fuel rest
    else if 194 ≤ b ∧ b ≤ 223 then
      match rest with
      | [] => []
      | b2 :: r2 =>
        if utf8IsCont b2 then ((b - 192) * 64 + (b2 - 128)) :: utf8DecodeIgnoreAux fuel r2
        else utf8DecodeIgnoreAux fuel rest
    else if 224 ≤ b ∧ b ≤ 239 then
      match rest with
      | [] => []
      | b2 :: r2 =>
        if utf8Cont3ok b b2 then
          match r2 with
          | [] => []
          | b3 :: r3 =>
            if utf8IsCont b3 then
              ((b - 224) * 4096 + (b2 - 128) * 64 + (b3 - 128)) :: utf8DecodeIgnoreAux fuel r3
            else utf8DecodeIgnoreAux fuel r2
        else utf8DecodeIgnoreAux fuel rest
    else if 240 ≤ b ∧ b ≤ 244 then
      match rest with
      | [] => []
      | b2 :: r2 =>
        if utf8Cont4ok b b2 then
          match r2 with
          | [] => []
          | b3 :: r3 =>
            if utf8IsCont b3 then
              match r3 with
              | [] => []
              | b4 :: r4 =>
                if utf8IsCont b4 then
                  ((b - 240) * 262144 + (b2 - 128) * 4096 + (b3 - 128) * 64 + (b4 - 128)) ::
                    utf8DecodeIgnoreAux fuel r4
                else utf8DecodeIgnoreAux fuel r3
            else utf8DecodeIgnoreAux fuel r2
        else utf8DecodeIgnoreAux fuel rest
    else utf8DecodeIgnoreAux fuel rest

/-- Python `bytes.decode("utf-8", errors="ignore")`. -/
def utf8DecodeIgnore (l : List Nat) : List Nat := utf8DecodeIgnoreAux l.length l

/-- Python `bytes.decode("utf-8")` (strict), same fuel scheme: fails (`none`)
on any ill-formed byte sequence, as the bare `decode('utf-8')` call in
`WorldModel.read` does. -/
def utf8DecodeStrictAux : Nat → List Nat → Option (List Nat)
  | 0, _ => none
  | _ + 1, [] => some []
  | fuel + 1, b :: rest =>
    if b < 128 then (utf8DecodeStrictAux fuel rest).map (b :: ·)
    else if 194 ≤ b ∧ b ≤ 223 then
      match rest with
      | [] => none
      | b2 :: r2 =>
        if utf8IsCont b2 then
          (utf8DecodeStrictAux fuel r2).map (((b - 192) * 64 + (b2 - 128)) :: ·)
        else none
    else if 224 ≤ b ∧ b ≤ 239 then
      match rest with
      | [] => none
      | b2 :: r2 =>
        if utf8Cont3ok b b2 then
          match r2 with
          | [] => none
          | b3 :: r3 =>
            if utf8IsCont b3 then
              (utf8DecodeStrictAux fuel r3).map
                (((b - 224) * 4096 + (b2 - 128) * 64 + (b3 - 128)) :: ·)
            else none
        else none
    else if 240 ≤ b ∧ b ≤ 244 then
      match rest with
      | [] => none
      | b2 :: r2 =>
        if utf8Cont4ok b b2 then
          match r2 with
          | [] => none
          | b3 :: r3 =>
            if utf8IsCont b3 then
              match r3 with
              | [] => none
              | b4 :: r4 =>
                if utf8IsCont b4 then
                  (utf8DecodeStrictAux fuel r4).map
                    (((b - 240) * 262144 + (b2 - 128) * 4096 + (b3 - 128) * 64 + (b4 - 128)) :: ·)
                else none
            else none
        else none
    else none

/-- Python `bytes.decode("utf-8")` (strict). -/
def utf8DecodeStrict (l : List Nat) : Option (List Nat) := utf8DecodeStrictAux l.length l

/-- `read_lithtech_string` (src/dat2lta85.py:24-28): a 16-bit little-endian
length, then that many bytes decoded as UTF-8 with `errors="ignore"`; when the
length is 0 nothing further is read.  `none` models the `struct.error` raised
when fewer than 2 bytes remain for the length field. -/
def read_lithtech_string (s : List Nat) : Option (List Nat × List Nat) :=
  match s with
  | b0 :: b1 :: rest =>
    let len := b0 + 256 * b1
    if len = 0 then some ([], rest)
    else some (utf8DecodeIgnore (rest.take len), rest.drop len)
  | _ => none

/-- The world-model name read in `WorldModel.read` (src/dat2lta85.py:246-248):
`name_len` as 16-bit little-endian, then `f.read(name_len).decode('utf-8')` -
a STRICT decode, which raises `UnicodeDecodeError` on ill-formed bytes. -/
def wmReadName (s : List Nat) : Option (List Nat × List Nat) :=
  match s with
  | b0 :: b1 :: rest =>
    let len := b0 + 256 * b1
    match utf8DecodeStrict (rest.take len) with
    | some name => some (name, rest.drop len)
    | none => none
  | _ => none

/-- The string value of a property that qualifies for the KeyFramer
`BaseKeyName` collection (src/dat2lta85.py:470-472): object type `KeyFramer`,
property name `BaseKeyName`, string value. -/
def baseKeyNameValue (otype : List Nat) (p : WProp) : Option (List Nat) :=
  match p.value with
  | .pstr v =>
    if otype = strCodes ("KeyFramer") ∧ p.name = strCodes ("BaseKeyName") then some v else none
  | .pother => none

/-- `keyframer_basekeynames`: the BaseKeyName values collected in encounter
order while decoding world objects (src/dat2lta85.py:431, 470-472). -/
def keyframer_basekeynames (objs : List WObject) : List (List Nat) :=
  objs.foldl (fun acc o => acc ++ o.props.filterMap (baseKeyNameValue o.otype)) []

/-- Blind-object tag of keyframe tracks (src/dat2lta85.py:508). -/
def keyframerTag : Nat := 1789855876

/-- Placeholder name used when the collected names are exhausted
(src/dat2lta85.py:512). -/
def unknownKFName : List Nat := strCodes ("<Unknown KeyFramer Name>")

/-- Name selection for the `keyframer_idx`-th keyframe-track blind object
(src/dat2lta85.py:509-513). -/
def pickKFName (names : List (List Nat)) (idx : Nat) : List Nat :=
  if h : idx < names.length then names.get ⟨idx, h⟩ else unknownKFName

/-- Labels assigned to the keyframe-track blind objects in decode order: the
loop of `read_blind_objects` (src/dat2lta85.py:501-513) threading the
`keyframer_idx` counter, which advances only on tag `keyframerTag`.
`ids` is the list of `obj_id` tags of the blind objects in stream order. -/
def kfLabels (names : List (List Nat)) : List Nat → Nat → List (List Nat)
  | [], _ => []
  | oid :: rest, idx =>
    if oid = keyframerTag then pickKFName names idx :: kfLabels names rest (idx + 1)
    else kfLabels names rest idx

/-- Concrete scene for the C3 witness: two KeyFramer objects with BaseKeyName
values, one unrelated object. -/
def kfExObjs : List WObject :=
  [⟨strCodes ("KeyFramer"), [⟨strCodes ("BaseKeyName"), .pstr (strCodes ("DoorKey"))⟩]⟩,
   ⟨strCodes ("Light"), []⟩,
   ⟨strCodes ("KeyFramer"), [⟨strCodes ("BaseKeyName"), .pstr (strCodes ("LiftKey"))⟩]⟩]

/-- Concrete blind-object tag stream for the C3 witness: three keyframe
tracks (more than the two collected names) and one unrelated blind object. -/
def kfExIds : List Nat := [1789855876, 42, 1789855876, 1789855876]

/-- Errors of the record walker: `struct.error` on a short read of an
unpacked field, and the `ValueError` raised for an unknown keyframe
interpolation code (src/dat2lta85.py:552). -/
inductive DecodeErr where
  | truncated : DecodeErr
  | unknownKeyType : Nat → DecodeErr
deriving DecidableEq

/-- Read exactly `n` bytes for a `struct.unpack` field; Python raises
`struct.error` when fewer remain. -/
def readBytes (n : Nat) (s : List Nat) : Option (List Nat × List Nat) :=
  if n ≤ s.length then some (s.take n, s.drop n) else none

/-- Little-endian `<H` of a 2-byte field. -/
def le16 (l : List Nat) : Nat := l.getD 0 0 + 256 * l.getD 1 0

/-- Single byte `<B`. -/
def le8 (l : List Nat) : Nat := l.getD 0 0

/-- One decoded keyframe entry (src/dat2lta85.py:527-552).  Multi-byte float
fields (`pos`, `rot_deg`, `timestamp`, `sound_radius`, Bezier tangents) are
kept as their raw little-endian byte chunks, since no claim inspects the
decoded float values. -/
structure KFKeyEntry where
  key_type : Nat
  name_len : Nat
  cmd_len : Nat
  pos : List Nat
  rot_deg : List Nat
  timestamp : List Nat
  sound_radius : List Nat
  sound_name : List Nat
  command : List Nat
  bez_prev : Option (List Nat)
  bez_next : Option (List Nat)
deriving DecidableEq

/-- Decoder of one keyframe entry of a keyframe-track blind object
(src/dat2lta85.py:527-552): `key_type` (u16), `name_len` (u8), `cmd_len` (u8),
position (12 bytes), rotation (12 bytes), timestamp (4), sound radius (4),
then `name_len` + `cmd_len` string bytes (plain `f.read`, which never fails),
then the Bezier tangents selected by `key_type`: none for 0, previous only
for 1, next only for 2, both for 3, and a raised decode error for anything
else. -/
def readKFKeyEntry (s : List Nat) : Except DecodeErr (KFKeyEntry × List Nat) :=
  match readBytes 2 s with
  | none => .error .truncated
  | some (ktb, s1) =>
  match readBytes 1 s1 with
  | none => .error .truncated
  | some (nlb, s2) =>
  match readBytes 1 s2 with
  | none => .error .truncated
  | some (clb, s3) =>
  match readBytes 12 s3 with
  | none => .error .truncated
  | some (pos, s4) =>
  match readBytes 12 s4 with
  | none => .error .truncated
  | some (rot, s5) =>
  match readBytes 4 s5 with
  | none => .error .truncated
  | some (ts, s6) =>
  match readBytes 4 s6 with
  | none => .error .truncated
  | some (rad, s7) =>
  if le16 ktb = 0 then
    .ok (⟨le16 ktb, le8 nlb, le8 clb, pos, rot, ts, rad,
          s7.take (le8 nlb), ((s7.drop (le8 nlb)).take (le8 clb)), none, none⟩,
         (s7.drop (le8 nlb)).drop (le8 clb))
  else if le16 ktb = 1 then
    match readBytes 12 ((s7.drop (le8 nlb)).drop (le8 clb)) with
    | none => .error .truncated
    | some (bp, s8) =>
      .ok (⟨le16 ktb, le8 nlb, le8 clb, pos, rot, ts, rad,
            s7.take (le8 nlb), ((s7.drop (le8 nlb)).take (le8 clb)), some bp, none⟩, s8)
  else if le16 ktb = 2 then
    match readBytes 12 ((s7.drop (le8 nlb)).drop (le8 clb)) with
    | none => .error .truncated
    | some (bn, s8) =>
      .ok (⟨le16 ktb, le8 nlb, le8 clb, pos, rot, ts, rad,
            s7.take (le8 nlb), ((s7.drop (le8 nlb)).take (le8 clb)), none, some bn⟩, s8)
  else if le16 ktb = 3 then
    match readBytes 12 ((s7.drop (le8 nlb)).drop (le8 clb)) with
    | none => .error .truncated
    | some (bp, s8) =>
      match readBytes 12 s8 with
      | none => .error .truncated
      | some (bn, s9) =>
        .ok (⟨le16 ktb, le8 nlb, le8 clb, pos, rot, ts, rad,
              s7.take (le8 nlb), ((s7.drop (le8 nlb)).take (le8 clb)), some bp, some bn⟩, s9)
  else .error (.unknownKeyType (le16 ktb))

/-- Concrete keyframe-entry byte stream with interpolation code 3 for the C8
witness: key_type 3, name_len 1, cmd_len 0, 12+12+4+4 payload bytes, one
sound-name byte, then both 12-byte Bezier tangents. -/
def kfKeyEx3 : List Nat :=
  3 :: 0 :: 1 :: 0 :: (List.replicate 12 0 ++ List.replicate 12 0 ++ List.replicate 4 0 ++
    List.replicate 4 0 ++ ([65] ++ List.replicate 24 0))

/-- Decoded entry of `kfKeyEx3`. -/
def kfKeyExEntry : KFKeyEntry :=
  ⟨3, 1, 0, List.replicate 12 0, List.replicate 12 0, List.replicate 4 0,
   List.replicate 4 0, [65], [], some (List.replicate 12 0), some (List.replicate 12 0)⟩

/-- One triangle of a render node's flat triangle stream: three indices into
the node's vertex buffer (src/dat2lta85.py:1384-1387; the trailing 4-byte poly
index/flags field is read and ignored). -/
structure Tri where
  i0 : Nat
  i1 : Nat
  i2 : Nat
deriving DecidableEq

/-- One decoded render-node section, restricted to the fields the
reconstruction inspects: the primary texture name and the declared triangle
count (src/dat2lta85.py:1344-1375).  The secondary texture, shader code,
texture effect and lightmap blob are decoded by the source but play no role
in slicing or filtering. -/
structure RNSection where
  tex0 : List Nat
  tri_count : Nat
deriving DecidableEq

/-- The animation-marker test (src/dat2lta85.py:1362):
`is_lightanim = (t0.lower() == "lightanim_base")` with `t0 = tex0.strip()`. -/
def isLightanim (tex0 : List Nat) : Bool :=
  py_lower (py_strip tex0) == strCodes ("lightanim_base")

/-- `sum(s["tri_count"] for s in sections)` (src/dat2lta85.py:1390). -/
def sectionTriSum (secs : List RNSection) : Nat := (secs.map RNSection.tri_count).sum

/-- The count-mismatch warning condition (src/dat2lta85.py:1390-1391,
1533-1536): a warning is printed; the run continues. -/
def renderNodeTriWarn (secs : List RNSection) (tris : List Tri) : Bool :=
  sectionTriSum secs != tris.length

/-- The slicing-and-filtering loop of steps 5 of `export_rendernodes_to_lta`
(src/dat2lta85.py:1393-1407 for top-level render nodes; the word-for-word
duplicate at src/dat2lta85.py:1542-1555 for world-model sub-nodes): walk the
sections in order, slice `all_tris[cursor:cursor+tri_count]`, advance the
cursor by the declared count, and keep the section unless it is marked
lightanim.  Each kept entry carries the original section index, the section
and its triangle slice. -/
def keptSections (tris : List Tri) : List RNSection → Nat → Nat →
    List (Nat × RNSection × List Tri)
  | [], _, _ => []
  | s :: rest, idx, cursor =>
    if isLightanim s.tex0 then keptSections tris rest (idx + 1) (cursor + s.tri_count)
    else (idx, s, (tris.drop cursor).take s.tri_count) ::
      keptSections tris rest (idx + 1) (cursor + s.tri_count)

/-- Concrete sections for the C2 witness: declared counts sum to 5 while the
triangle stream has 3 entries (a structural mismatch). -/
def c2exSecs : List RNSection := [⟨strCodes ("wall"), 2⟩, ⟨strCodes ("roof"), 3⟩]

/-- Concrete triangle stream for the C2 witness. -/
def c2exTris : List Tri := [⟨0, 1, 2⟩, ⟨1, 2, 3⟩, ⟨7, 8, 9⟩]

/-- Concrete sections for the C4 witness: the middle section is a lightanim
marker (mixed case, padded with spaces). -/
def c4exSecs : List RNSection :=
  [⟨strCodes ("stone"), 2⟩, ⟨strCodes (" LightAnim_Base "), 3⟩, ⟨strCodes ("wood"), 1⟩]

/-- Concrete triangle stream for the C4 witness (6 = 2 + 3 + 1 triangles). -/
def c4exTris : List Tri :=
  [⟨0, 0, 0⟩, ⟨1, 1, 1⟩, ⟨2, 2, 2⟩, ⟨3, 3, 3⟩, ⟨4, 4, 4⟩, ⟨5, 5, 5⟩]

/-- The three vertex indices of one triangle, in the order the inner loop of
the repacking step visits them (`for i in (i0, i1, i2)`,
src/dat2lta85.py:1414-1415). -/
def triIdxs (t : Tri) : List Nat := [t.i0, t.i1, t.i2]

/-- One step of the local-vertex collection (src/dat2lta85.py:1416-1418):
`if i not in index_map: index_map[i] = len(local_verts); local_verts.append(vertices[i])`.
The state is `(local vertex list as original indices, index_map as an
association list)`; the emitted local vertex list of the source is this index
list mapped through the node's vertex buffer. -/
def addVertIdx (st : List Nat × List (Nat × Nat)) (i : Nat) : List Nat × List (Nat × Nat) :=
  if (st.2.lookup i).isSome then st else (st.1 ++ [i], st.2 ++ [(i, st.1.length)])

/-- The per-group repacking loop (src/dat2lta85.py:1410-1418): fold over the
group's triangles, visiting each triangle's three indices in order. -/
def buildIndexMap (tris : List Tri) : List Nat × List (Nat × Nat) :=
  tris.foldl (fun st t => (triIdxs t).foldl addVertIdx st) ([], [])

/-- Triangle remapping (src/dat2lta85.py:1420):
`local_tris = [(index_map[i0], index_map[i1], index_map[i2]) ...]`. -/
def remapTri (im : List (Nat × Nat)) (t : Tri) : Tri :=
  ⟨(im.lookup t.i0).getD 0, (im.lookup t.i1).getD 0, (im.lookup t.i2).getD 0⟩

/-- First-encounter deduplication step (specification of the growth of
`local_verts`). -/
def dedupStep (acc : List Nat) (i : Nat) : List Nat := if i ∈ acc then acc else acc ++ [i]

/-- First-encounter-order deduplication of a list. -/
def firstEncounter (l : List Nat) : List Nat := l.foldl dedupStep []

/-- Association list pairing each element of `l` with its position starting
at `k` (the shape `index_map` always has). -/
def enumPairs : List Nat → Nat → List (Nat × Nat)
  | [], _ => []
  | a :: l, k => (a, k) :: enumPairs l (k + 1)

/-- Concrete triangle group for the C5 witness. -/
def c5exTris : List Tri := [⟨5, 7, 5⟩, ⟨7, 9, 5⟩]

/-- Abstract view of the decoded scene at the point where
`export_rendernodes_to_lta` starts the NODE HIERARCHY pass
(src/dat2lta85.py:1654): per-render-node kept-brush counts
(`section_brushes_by_node`, iterated in its insertion order, which is
ascending node order, the same order the `globalproplist` pass uses via
`sorted(...keys())`), the world-object list (`some c` = object matched by
name to a WM render tree contributing `c` kept sections, `none` =
unmatched), the keyframer track key counts (`keyframer_keys_map` in dict
order), and the sizes of the four auxiliary collections. -/
structure Scene where
  rnBrushCounts : List Nat
  objects : List (Option Nat)
  kfKeys : List Nat
  skyportals : Nat
  occluders : Nat
  blockers : Nat
  particleBlockers : Nat

/-- State of the node-hierarchy emitter: the three shared counters
`base_nodeid`, `base_propid`, `brushindex` (src/dat2lta85.py:1655-1657) and
the `(nodeid, propid)` pairs written so far, in emission order. -/
structure EmitState where
  nodeid : Nat
  propid : Nat
  brush : Nat
  nodes : List (Nat × Nat)

/-- Emit one worldnode carrying property id `pid`: writes the current
`base_nodeid` and advances it (every worldnode write in the source follows
this pattern). -/
def pushNode (pid : Nat) (s : EmitState) : EmitState :=
  { s with nodes := s.nodes ++ [(s.nodeid, pid)], nodeid := s.nodeid + 1 }

/-- Emit one brush node that consumes a property id and a brush index
(render-node section brushes src/dat2lta85.py:1693-1706, WM section brushes
1757-1772, occluder brushes 1850-1863). -/
def emitBrush (s : EmitState) : EmitState :=
  { pushNode s.propid s with propid := s.propid + 1, brush := s.brush + 1 }

def emitBrushes : Nat → EmitState → EmitState
  | 0, s => s
  | n + 1, s => emitBrushes n (emitBrush s)

/-- Emit one non-brush node that consumes a property id (object nodes
src/dat2lta85.py:1739-1750, keyframer key nodes 1790-1802). -/
def emitPropNode (s : EmitState) : EmitState :=
  { pushNode s.propid s with propid := s.propid + 1 }

def emitPropNodes : Nat → EmitState → EmitState
  | 0, s => s
  | n + 1, s => emitPropNodes n (emitPropNode s)

/-- Emit one brush node that WRITES the current property id but does not
advance it (sky-portal brushes src/dat2lta85.py:1822-1834, blocker brushes
1878-1890, particle-blocker brushes 1906-1918: `base_propid += 1` sits after
the loop). -/
def emitSharedBrush (s : EmitState) : EmitState :=
  { pushNode s.propid s with brush := s.brush + 1 }

def emitSharedBrushes : Nat → EmitState → EmitState
  | 0, s => s
  | n + 1, s => emitSharedBrushes n (emitSharedBrush s)

/-- The "RenderNodes" children (src/dat2lta85.py:1681-1709): one container
per render node (propid 0) holding one brush child per kept section. -/
def emitRNBlock (counts : List Nat) (s : EmitState) : EmitState :=
  counts.foldl (fun s c => emitBrushes c (pushNode 0 s)) s

/-- One world-object node (src/dat2lta85.py:1735-1776): the object node
consumes a propid; a matched object additionally emits one brush child per
kept section of its WM render tree. -/
def emitObjEntry (s : EmitState) (m : Option Nat) : EmitState :=
  match m with
  | none => emitPropNode s
  | some c => emitBrushes c (emitPropNode s)

/-- The keyframer containers (src/dat2lta85.py:1778-1805): one container per
track name (propid 0) holding one key node per keyframe entry. -/
def emitKFBlock (kf : List Nat) (s : EmitState) : EmitState :=
  kf.foldl (fun s k => emitPropNodes k (pushNode 0 s)) s

/-- The "ObjectsAndWMs" block (src/dat2lta85.py:1723-1808): emitted only when
the world-object list is non-empty; the keyframer containers sit inside it,
guarded by their own non-emptiness test. -/
def emitObjectsBlock (objs : List (Option Nat)) (kf : List Nat) (s : EmitState) : EmitState :=
  if 0 < objs.length then
    let s1 := pushNode 0 s
    let s2 := objs.foldl emitObjEntry s1
    if 0 < kf.length then emitKFBlock kf s2 else s2
  else s

/-- A container of shared-propid brushes ("SkyPortals" src/dat2lta85.py:
1811-1837, "Blockers" 1867-1893, "ParticleBlockers" 1895-1921): emitted only
when non-empty; all brush children carry the same propid, advanced once after
the loop. -/
def emitSharedGroup (count : Nat) (s : EmitState) : EmitState :=
  if 0 < count then
    let s1 := pushNode 0 s
    let s2 := emitSharedBrushes count s1
    { s2 with propid := s2.propid + 1 }
  else s

/-- The "Occluders" container (src/dat2lta85.py:1839-1865): each occluder
brush consumes its own propid. -/
def emitOccludersBlock (count : Nat) (s : EmitState) : EmitState :=
  if 0 < count then emitBrushes count (pushNode 0 s) else s

/-- The whole NODE HIERARCHY pass of `export_rendernodes_to_lta`
(src/dat2lta85.py:1654-1921): counters start at `base_nodeid = 1`,
`base_propid = 1`, `brushindex = 0`; the root worldnode and the fixed
"RenderNodes" container both carry propid 0. -/
def emitNodeHierarchy (sc : Scene) : EmitState :=
  let s0 : EmitState := ⟨1, 1, 0, []⟩
  let s1 := pushNode 0 s0
  let s2 := pushNode 0 s1
  let s3 := emitRNBlock sc.rnBrushCounts s2
  let s4 := emitObjectsBlock sc.objects sc.kfKeys s3
  let s5 := emitSharedGroup sc.skyportals s4
  let s6 := emitOccludersBlock sc.occluders s5
  let s7 := emitSharedGroup sc.blockers s6
  emitSharedGroup sc.particleBlockers s7

/-- One entry of the flat global property list, tagged by which loop of the
`globalproplist` pass emitted it (src/dat2lta85.py:1926-2178). -/
inductive PropEntry where
  | empty : PropEntry
  | rnSection : PropEntry
  | objectProps : PropEntry
  | wmSection : PropEntry
  | kfKey : PropEntry
  | skyPortal : PropEntry
  | occluder : PropEntry
  | blocker : PropEntry
  | particleBlocker : PropEntry
deriving DecidableEq

/-- The `globalproplist` pass (src/dat2lta85.py:1926-2178): a leading empty
proplist, one entry per kept render-node section, one per world object plus
one per WM section of a matched object, one per keyframer key, ONE shared
entry for all sky portals (if any), one per occluder, ONE shared entry for
all blockers (if any), and ONE for all particle blockers (if any). -/
def emitGlobalPropList (sc : Scene) : List PropEntry :=
  [.empty]
  ++ sc.rnBrushCounts.flatMap (fun c => List.replicate c .rnSection)
  ++ sc.objects.flatMap (fun m => .objectProps ::
      (match m with
       | some c => List.replicate c .wmSection
       | none => []))
  ++ sc.kfKeys.flatMap (fun k => List.replicate k .kfKey)
  ++ (if 0 < sc.skyportals then [.skyPortal] else [])
  ++ List.replicate sc.occluders .occluder
  ++ (if 0 < sc.blockers then [.blocker] else [])
  ++ (if 0 < sc.particleBlockers then [.particleBlocker] else [])

/-- The node ids written, in emission order. -/
def nodeIds (s : EmitState) : List Nat := s.nodes.map Prod.fst

/-- The nonzero property ids written, in emission order (container nodes all
carry the literal propid 0). -/
def nzOf (l : List (Nat × Nat)) : List Nat := (l.map Prod.snd).filter (fun p => p != 0)

/-- A hierarchy-emission step appends nodes whose ids continue the
`base_nodeid` counter contiguously. -/
def NodesOk (f : EmitState → EmitState) : Prop :=
  ∀ s, ∃ k, (f s).nodeid = s.nodeid + k ∧
    nodeIds (f s) = nodeIds s ++ List.range' s.nodeid k

/-- A hierarchy-emission step advances `base_propid` by `d` and appends
`contrib p` to the written nonzero propids, where `p` is the entry value of
the counter (assumed positive, as it starts at 1 and never decreases). -/
def NzOk (f : EmitState → EmitState) (d : Nat) (contrib : Nat → List Nat) : Prop :=
  ∀ s, 1 ≤ s.propid →
    (f s).propid = s.propid + d ∧
    nzOf (f s).nodes = nzOf s.nodes ++ contrib s.propid

/-- Property ids consumed by one object entry: one for the object node plus
one per WM brush child of a matched object. -/
def objEntryDelta (m : Option Nat) : Nat :=
  match m with
  | none => 1
  | some c => 1 + c

/-- Property ids consumed by the object loop. -/
def objDelta (objs : List (Option Nat)) : Nat := (objs.map objEntryDelta).sum

/-- Property ids consumed by the whole "ObjectsAndWMs" block (zero when the
object list is empty, since the source skips the block entirely then). -/
def objBlockDelta (objs : List (Option Nat)) (kf : List Nat) : Nat :=
  if 0 < objs.length then objDelta objs + kf.sum else 0

/-- The nonzero property ids the hierarchy pass writes, in order: one strictly
increasing run `1..` for the render-node section brushes, continuing without
gap or reuse through the object/WM-brush/keyframer-key nodes, then ONE value
repeated for every sky-portal brush (if any), a strictly increasing run for
the occluder brushes, one repeated value for the blocker brushes, and one
repeated value for the particle-blocker brushes. -/
def nzExpected (sc : Scene) : List Nat :=
  List.range' 1 sc.rnBrushCounts.sum ++
  List.range' (1 + sc.rnBrushCounts.sum) (objBlockDelta sc.objects sc.kfKeys) ++
  (if 0 < sc.skyportals then
      List.replicate sc.skyportals
        (1 + (sc.rnBrushCounts.sum + objBlockDelta sc.objects sc.kfKeys))
    else []) ++
  List.range'
    (1 + (sc.rnBrushCounts.sum + objBlockDelta sc.objects sc.kfKeys +
      if 0 < sc.skyportals then 1 else 0))
    sc.occluders ++
  (if 0 < sc.blockers then
      List.replicate sc.blockers
        (1 + ((sc.rnBrushCounts.sum + objBlockDelta sc.objects sc.kfKeys +
          if 0 < sc.skyportals then 1 else 0) + sc.occluders))
    else []) ++
  (if 0 < sc.particleBlockers then
      List.replicate sc.particleBlockers
        (1 + ((sc.rnBrushCounts.sum + objBlockDelta sc.objects sc.kfKeys +
          if 0 < sc.skyportals then 1 else 0) + sc.occluders +
          if 0 < sc.blockers then 1 else 0))
    else [])

/-- Scene with two sky portals and nothing else: the counterexample to C1 as
stated. -/
def cexScene : Scene := ⟨[], [], [], 2, 0, 0, 0⟩

/-- The scenario scene of the claim: 3 world objects, 0 geometry groups, no
auxiliary collections. -/
def scn3 : Scene := ⟨[], [none, none, none], [], 0, 0, 0, 0⟩

/-- One step of `py_upper_code` is idempotent: uppercasing an already
uppercased code point changes nothing. -/
theorem py_upper_code_idem (c : Nat) : py_upper_code (py_upper_code c) = py_upper_code c := by
  unfold py_upper_code
  split
  · rw [if_neg (by omega)]
  · rfl

theorem st_gethash_step_upper (n c : Nat) :
    st_gethash_step n (py_upper_code c) = st_gethash_step n c := by
  unfold st_gethash_step
  rw [py_upper_code_idem]

theorem st_gethash_foldl_upper (s : List Nat) :
    ∀ n, (py_upper s).foldl st_gethash_step n = s.foldl st_gethash_step n := by
  induction s with
  | nil => intro n; rfl
  | cons c rest ih =>
    intro n
    simp only [py_upper, List.map_cons, List.foldl_cons]
    rw [st_gethash_step_upper]
    simpa [py_upper] using ih (st_gethash_step n c)

/-- The rolling hash is invariant under uppercasing the whole string. -/
theorem st_gethash_ic_upper (s : List Nat) : st_gethash_ic (py_upper s) = st_gethash_ic s :=
  st_gethash_foldl_upper s 0

/-- Shared helper: the degenerate short-circuit of the solver. -/
theorem generate_opq_exact_zero (v0 v1 v2 : Vec3) (uv0 uv1 uv2 : Vec2)
    (width height : ℝ) (h : width = 0 ∨ height = 0) :
    generate_opq_exact v0 v1 v2 uv0 uv1 uv2 width height =
      (⟨0, 0, 0⟩, ⟨1, 0, 0⟩, ⟨0, 0, 1⟩) := by
  unfold generate_opq_exact
  rw [if_pos h]

/-- C6: for every input triangle (any world positions and any UV coordinates),
if the texel width or the texel height passed to the texture-basis solver is 0,
the solver returns exactly `origin=(0,0,0), P=(1,0,0), Q=(0,0,1)`, without
computing barycentric coordinates (short-circuit branch of
`generate_opq_exact`, src/dat2lta85.py:914-915). -/
theorem claim_C6 (v0 v1 v2 : Vec3) (uv0 uv1 uv2 : Vec2) (width height : ℝ)
    (h : width = 0 ∨ height = 0) :
    generate_opq_exact v0 v1 v2 uv0 uv1 uv2 width height =
      (⟨0, 0, 0⟩, ⟨1, 0, 0⟩, ⟨0, 0, 1⟩) :=
  generate_opq_exact_zero v0 v1 v2 uv0 uv1 uv2 width height h

theorem claim_C6_witness :
    ((0 : ℝ) = 0 ∨ (7 : ℝ) = 0) ∧
    generate_opq_exact ⟨1, 2, 3⟩ ⟨4, 5, 6⟩ ⟨7, 8, 9⟩ ⟨0, 0⟩ ⟨1, 0⟩ ⟨0, 1⟩ 0 7 =
      (⟨0, 0, 0⟩, ⟨1, 0, 0⟩, ⟨0, 0, 1⟩) :=
  ⟨Or.inl rfl,
   claim_C6 ⟨1, 2, 3⟩ ⟨4, 5, 6⟩ ⟨7, 8, 9⟩ ⟨0, 0⟩ ⟨1, 0⟩ ⟨0, 1⟩ 0 7 (Or.inl rfl)⟩

/-- C10: for every texture path whose lowercased form starts with `lightanim`
or `default`, the texture-size lookup returns `(0, 0)` independently of the
filesystem (src/dat2lta85.py:871-872); consequently a section whose decoded
primary texture name is empty (normalized to `Default`,
src/dat2lta85.py:1355-1358) always receives the fixed degenerate texture basis
for that slot. -/
theorem claim_C10 :
    (∀ (fs fs' : List Nat → Nat × Nat) (path : List Nat),
      (py_startswith (py_lower path) (strCodes ("lightanim")) = true ∨
       py_startswith (py_lower path) (strCodes ("default")) = true) →
      get_dtx_texture_size fs path = (0, 0) ∧
      get_dtx_texture_size fs path = get_dtx_texture_size fs' path) ∧
    (∀ (fs : List Nat → Nat × Nat) (tex0 : List Nat), py_strip tex0 = [] →
      sectionTexSize fs tex0 = (0, 0) ∧
      ∀ v0 v1 v2 uv0 uv1 uv2,
        generate_opq_exact v0 v1 v2 uv0 uv1 uv2
          (((sectionTexSize fs tex0).1 : ℕ) : ℝ) (((sectionTexSize fs tex0).2 : ℕ) : ℝ) =
          (⟨0, 0, 0⟩, ⟨1, 0, 0⟩, ⟨0, 0, 1⟩)) := by
  constructor
  · intro fs fs' path h
    have hcond : (py_startswith (py_lower path) (strCodes ("lightanim")) ||
        py_startswith (py_lower path) (strCodes ("default"))) = true := by
      rcases h with h | h <;> simp [h]
    constructor <;> simp [get_dtx_texture_size, hcond]
  · intro fs tex0 h
    have hsz : sectionTexSize fs tex0 = (0, 0) := by
      rw [sectionTexSize, normalizeTexName, if_pos h]
      have hd : py_startswith (py_lower (strCodes ("Default"))) (strCodes ("default")) = true := by
        decide
      simp [get_dtx_texture_size, hd]
    refine ⟨hsz, ?_⟩
    intro v0 v1 v2 uv0 uv1 uv2
    rw [hsz]
    exact generate_opq_exact_zero v0 v1 v2 uv0 uv1 uv2 _ _ (Or.inl (by norm_num))

theorem claim_C10_witness :
    py_startswith (py_lower (strCodes ("LightAnimWall.dtx"))) (strCodes ("lightanim")) = true ∧
    get_dtx_texture_size (fun _ => (64, 64)) (strCodes ("LightAnimWall.dtx")) = (0, 0) ∧
    py_strip (strCodes ("  ")) = [] ∧
    sectionTexSize (fun _ => (64, 64)) (strCodes ("  ")) = (0, 0) :=
  ⟨by decide,
   (claim_C10.1 (fun _ => (64, 64)) (fun _ => (32, 32)) (strCodes ("LightAnimWall.dtx"))
      (Or.inl (by decide))).1,
   by decide,
   (claim_C10.2 (fun _ => (64, 64)) (strCodes ("  ")) (by decide)).1⟩

theorem occTblInsert_values (tbl : List (List Nat × Nat)) (v : List Nat)
    (h : ∀ e ∈ tbl, e.2 = st_gethash_ic e.1) :
    ∀ e ∈ occTblInsert tbl v, e.2 = st_gethash_ic e.1 := by
  intro e he
  unfold occTblInsert at he
  split at he
  · exact h e he
  · rcases List.mem_append.1 he with h1 | h1
    · exact h e h1
    · simp at h1
      rw [h1]

theorem occPropStep_values (ot : List Nat) (tbl : List (List Nat × Nat)) (p : WProp)
    (h : ∀ e ∈ tbl, e.2 = st_gethash_ic e.1) :
    ∀ e ∈ occPropStep ot tbl p, e.2 = st_gethash_ic e.1 := by
  unfold occPropStep
  cases hv : occPropValue ot p with
  | none => simpa using h
  | some v => simpa using occTblInsert_values tbl v h

theorem occPropsFold_values (ot : List Nat) (l : List WProp) :
    ∀ tbl, (∀ e ∈ tbl, e.2 = st_gethash_ic e.1) →
      ∀ e ∈ l.foldl (occPropStep ot) tbl, e.2 = st_gethash_ic e.1 := by
  induction l with
  | nil => intro tbl h; simpa using h
  | cons p rest ih =>
    intro tbl h
    rw [List.foldl_cons]
    exact ih (occPropStep ot tbl p) (occPropStep_values ot tbl p h)

theorem occluderNameTable_values (objs : List WObject) :
    ∀ e ∈ occluderNameTable objs, e.2 = st_gethash_ic e.1 := by
  unfold occluderNameTable
  have main : ∀ (l : List WObject) (tbl : List (List Nat × Nat)),
      (∀ e ∈ tbl, e.2 = st_gethash_ic e.1) →
      ∀ e ∈ l.foldl occNamesOfObj tbl, e.2 = st_gethash_ic e.1 := by
    intro l
    induction l with
    | nil => intro tbl h; simpa using h
    | cons o rest ih =>
      intro tbl h
      rw [List.foldl_cons]
      exact ih (occNamesOfObj tbl o) (occPropsFold_values o.otype o.props tbl h)
  exact main objs [] (by simp)

theorem occTblInsert_mono (tbl : List (List Nat × Nat)) (v w : List Nat)
    (h : (tbl.lookup v).isSome) : ((occTblInsert tbl w).lookup v).isSome := by
  unfold occTblInsert
  split
  · exact h
  · rw [List.lookup_append]
    rcases ho : tbl.lookup v with _ | b
    · rw [ho] at h; simp at h
    · simp [Option.or]

theorem occTblInsert_self (tbl : List (List Nat × Nat)) (v : List Nat) :
    ((occTblInsert tbl v).lookup v).isSome := by
  unfold occTblInsert
  split
  · assumption
  · rw [List.lookup_append]
    rcases ho : tbl.lookup v with _ | b <;> simp [Option.or]

theorem occPropStep_mono (ot : List Nat) (tbl : List (List Nat × Nat)) (p : WProp)
    (v : List Nat) (h : (tbl.lookup v).isSome) :
    ((occPropStep ot tbl p).lookup v).isSome := by
  unfold occPropStep
  cases hv : occPropValue ot p with
  | none => simpa using h
  | some w => simpa using occTblInsert_mono tbl v w h

theorem occPropsFold_mono (ot : List Nat) (l : List WProp) :
    ∀ tbl (v : List Nat), (tbl.lookup v).isSome →
      ((l.foldl (occPropStep ot) tbl).lookup v).isSome := by
  induction l with
  | nil => intro tbl v h; simpa using h
  | cons p rest ih =>
    intro tbl v h
    rw [List.foldl_cons]
    exact ih (occPropStep ot tbl p) v (occPropStep_mono ot tbl p v h)

theorem occPropsFold_mem (ot : List Nat) (p : WProp) (v : List Nat)
    (hv : occPropValue ot p = some v) :
    ∀ (l : List WProp), p ∈ l → ∀ tbl,
      ((l.foldl (occPropStep ot) tbl).lookup v).isSome := by
  intro l
  induction l with
  | nil => intro hp; simp at hp
  | cons q rest ih =>
    intro hp tbl
    rw [List.foldl_cons]
    rcases List.mem_cons.1 hp with h1 | h1
    · subst h1
      apply occPropsFold_mono
      unfold occPropStep
      rw [hv]
      exact occTblInsert_self tbl v
    · exact ih h1 (occPropStep ot tbl q)

theorem occObjsFold_mono (l : List WObject) :
    ∀ tbl (v : List Nat), (tbl.lookup v).isSome →
      ((l.foldl occNamesOfObj tbl).lookup v).isSome := by
  induction l with
  | nil => intro tbl v h; simpa using h
  | cons o rest ih =>
    intro tbl v h
    rw [List.foldl_cons]
    exact ih (occNamesOfObj tbl o) v (occPropsFold_mono o.otype o.props tbl v h)

theorem occluderNameTable_mem (objs : List WObject) (o : WObject) (p : WProp) (v : List Nat)
    (ho : o ∈ objs) (hp : p ∈ o.props) (hv : occPropValue o.otype p = some v) :
    ((occluderNameTable objs).lookup v).isSome := by
  unfold occluderNameTable
  have main : ∀ (l : List WObject), o ∈ l → ∀ tbl,
      ((l.foldl occNamesOfObj tbl).lookup v).isSome := by
    intro l
    induction l with
    | nil => intro h; simp at h
    | cons q rest ih =>
      intro hmem tbl
      rw [List.foldl_cons]
      rcases List.mem_cons.1 hmem with h1 | h1
      · subst h1
        apply occObjsFold_mono
        exact occPropsFold_mem o.otype p v hv o.props hp tbl
      · exact ih h1 (occNamesOfObj tbl q)
  exact main objs ho []

/-- C7: the occluder name hash is case-insensitive (`hash(s) = hash(upper(s))`
for every string, in particular `hash("FOO") = hash("foo")`), computed as the
rolling accumulation `n = (n*29 + (toupper(ch) - ord('A'))) mod 2^32`
(definition `st_gethash_ic`), and every non-empty `OccluderName*` property
value of a `DynamicOccluderVolume` world object appears in the occluder name
table mapped to exactly that hash value (src/dat2lta85.py:35-45, 479-481). -/
theorem claim_C7 :
    (∀ s : List Nat, st_gethash_ic (py_upper s) = st_gethash_ic s) ∧
    st_gethash_ic (strCodes ("FOO")) = st_gethash_ic (strCodes ("foo")) ∧
    (∀ (objs : List WObject) (o : WObject) (p : WProp) (v : List Nat),
      o ∈ objs → p ∈ o.props → occPropValue o.otype p = some v →
      (occluderNameTable objs).lookup v = some (st_gethash_ic v)) := by
  refine ⟨st_gethash_ic_upper, by decide, ?_⟩
  intro objs o p v ho hp hv
  have hs := occluderNameTable_mem objs o p v ho hp hv
  rcases hb : (occluderNameTable objs).lookup v with _ | b
  · rw [hb] at hs; simp at hs
  · have hmem : (v, b) ∈ occluderNameTable objs := by
      rcases List.lookup_eq_some_iff.1 hb with ⟨l₁, l₂, heq, -⟩
      rw [heq]
      simp
    have := occluderNameTable_values objs (v, b) hmem
    simp only at this
    rw [this]

theorem claim_C7_witness :
    (let obj : WObject :=
      ⟨strCodes ("DynamicOccluderVolume"),
       [⟨strCodes ("OccluderName1"), .pstr (strCodes ("Foo"))⟩]⟩
     (occluderNameTable [obj]).lookup (strCodes ("Foo")) =
       some (st_gethash_ic (strCodes ("Foo")))) ∧
    st_gethash_ic (strCodes ("Foo")) = st_gethash_ic (strCodes ("fOO")) := by
  constructor
  · exact claim_C7.2.2 _ _ _ _ (List.mem_singleton.2 rfl) (List.mem_singleton.2 rfl)
      (by decide)
  · decide

/-- C9 as stated is false at the `WorldModel.read` call site it cites: the
stream `[1, 0, 255]` has at least `2 + length` bytes (`length = 1`), yet the
name decode fails on the invalid UTF-8 byte `255` because `decode('utf-8')`
there is strict.  The generic reader `read_lithtech_string` succeeds on the
same bytes. -/
theorem claim_C9_counterexample :
    wmReadName [1, 0, 255] = none ∧
    read_lithtech_string [1, 0, 255] = some ([], []) := by
  decide

/-- C9 (amended): for every byte stream with at least `2 + length` remaining
bytes, `read_lithtech_string` consumes exactly 2 bytes of 16-bit little-endian
count plus exactly `length` string bytes and never fails (ill-formed UTF-8 is
dropped best-effort); when the length is 0 the result is the empty string with
exactly 2 bytes consumed.  The `WorldModel.read` name read consumes the same
bytes but decodes strictly, so it fails on invalid UTF-8 instead. -/
theorem claim_C9 (b0 b1 : Nat) (rest : List Nat)
    (hlen : b0 + 256 * b1 ≤ rest.length) :
    (∃ str, read_lithtech_string (b0 :: b1 :: rest) =
        some (str, (b0 :: b1 :: rest).drop (2 + (b0 + 256 * b1)))) ∧
    (b0 + 256 * b1 = 0 → read_lithtech_string (b0 :: b1 :: rest) = some ([], rest)) ∧
    (∀ name rest2, wmReadName (b0 :: b1 :: rest) = some (name, rest2) →
        rest2 = (b0 :: b1 :: rest).drop (2 + (b0 + 256 * b1))) := by
  have hdrop : (b0 :: b1 :: rest).drop (2 + (b0 + 256 * b1)) = rest.drop (b0 + 256 * b1) := by
    rw [Nat.add_comm]
    rfl
  refine ⟨?_, ?_, ?_⟩
  · rw [hdrop]
    unfold read_lithtech_string
    by_cases h0 : b0 + 256 * b1 = 0
    · exact ⟨[], by simp [h0]⟩
    · exact ⟨utf8DecodeIgnore (rest.take (b0 + 256 * b1)), by simp [h0]⟩
  · intro h0
    unfold read_lithtech_string
    simp [h0]
  · intro name rest2 h
    rw [hdrop]
    unfold wmReadName at h
    rcases hs : utf8DecodeStrict (rest.take (b0 + 256 * b1)) with _ | nm
    · simp only [hs] at h
      exact Option.noConfusion h
    · simp only [hs] at h
      exact (Prod.mk.injEq _ _ _ _ ▸ (Option.some.injEq _ _ ▸ h)).2.symm

theorem claim_C9_witness :
    (∃ str, read_lithtech_string [3, 0, 72, 105, 255, 33] =
        some (str, ([3, 0, 72, 105, 255, 33] : List Nat).drop (2 + (3 + 256 * 0)))) ∧
    read_lithtech_string [0, 0, 72] = some ([], [72]) :=
  ⟨(claim_C9 3 0 [72, 105, 255, 33] (by decide)).1,
   (claim_C9 0 0 [72] (by decide)).2.1 rfl⟩

theorem kfLabels_eq (names : List (List Nat)) (ids : List Nat) :
    ∀ idx, kfLabels names ids idx =
      (List.range (ids.count keyframerTag)).map (fun j => pickKFName names (idx + j)) := by
  induction ids with
  | nil => intro idx; simp [kfLabels]
  | cons oid rest ih =>
    intro idx
    by_cases h : oid = keyframerTag
    · rw [kfLabels, if_pos h]
      have hc : (oid :: rest).count keyframerTag = rest.count keyframerTag + 1 := by
        simp [List.count_cons, h]
      rw [hc, List.range_succ_eq_map, List.map_cons, Nat.add_zero, List.map_map, ih (idx + 1)]
      congr 1
      apply List.map_congr_left
      intro a _
      simp only [Function.comp]
      congr 1
      omega
    · rw [kfLabels, if_neg h]
      have hc : (oid :: rest).count keyframerTag = rest.count keyframerTag := by
        simp [List.count_cons, h]
      rw [hc, ih idx]

/-- C3: the i-th keyframe-track blind object (tag 1789855876) is labeled with
the BaseKeyName collected at position i, positionally and by no other
association; when the collected names are exhausted the placeholder name is
substituted and decoding continues (every tagged blind object still gets a
label).  (src/dat2lta85.py:470-472, 496-513.) -/
theorem claim_C3 (objs : List WObject) (ids : List Nat) (i : Nat) :
    (kfLabels (keyframer_basekeynames objs) ids 0).length = ids.count keyframerTag ∧
    (∀ h : i < (kfLabels (keyframer_basekeynames objs) ids 0).length,
      ∀ hn : i < (keyframer_basekeynames objs).length,
      (kfLabels (keyframer_basekeynames objs) ids 0).get ⟨i, h⟩ =
        (keyframer_basekeynames objs).get ⟨i, hn⟩) ∧
    (∀ h : i < (kfLabels (keyframer_basekeynames objs) ids 0).length,
      (keyframer_basekeynames objs).length ≤ i →
      (kfLabels (keyframer_basekeynames objs) ids 0).get ⟨i, h⟩ = unknownKFName) := by
  have hlen : (kfLabels (keyframer_basekeynames objs) ids 0).length = ids.count keyframerTag := by
    rw [kfLabels_eq]
    simp
  have hget : ∀ h : i < (kfLabels (keyframer_basekeynames objs) ids 0).length,
      (kfLabels (keyframer_basekeynames objs) ids 0).get ⟨i, h⟩ =
        pickKFName (keyframer_basekeynames objs) i := by
    intro h
    have hi : i < ids.count keyframerTag := hlen ▸ h
    rw [List.get_eq_getElem]
    have := kfLabels_eq (keyframer_basekeynames objs) ids 0
    rw [List.getElem_of_eq this]
    simp
  refine ⟨hlen, ?_, ?_⟩
  · intro h hn
    rw [hget h, pickKFName, dif_pos hn]
  · intro h hn
    rw [hget h, pickKFName, dif_neg (by omega)]

theorem claim_C3_witness :
    (kfLabels (keyframer_basekeynames kfExObjs) kfExIds 0).length = 3 ∧
    (kfLabels (keyframer_basekeynames kfExObjs) kfExIds 0).get ⟨1, by decide⟩ =
      (keyframer_basekeynames kfExObjs).get ⟨1, by decide⟩ ∧
    (kfLabels (keyframer_basekeynames kfExObjs) kfExIds 0).get ⟨2, by decide⟩ =
      unknownKFName := by
  refine ⟨?_, ?_, ?_⟩
  · exact ((claim_C3 kfExObjs kfExIds 0).1).trans (by decide)
  · exact (claim_C3 kfExObjs kfExIds 1).2.1 (by decide) (by decide)
  · exact (claim_C3 kfExObjs kfExIds 2).2.2 (by decide) (by decide)

theorem readBytes_two (a b : Nat) (r : List Nat) : readBytes 2 (a :: b :: r) = some ([a, b], r) := by
  unfold readBytes
  rw [if_pos (by simp [List.length_cons])]
  rfl

theorem readBytes_one (a : Nat) (r : List Nat) : readBytes 1 (a :: r) = some ([a], r) := by
  unfold readBytes
  rw [if_pos (by simp [List.length_cons])]
  rfl

theorem readBytes_exact (l r : List Nat) (n : Nat) (h : l.length = n) :
    readBytes n (l ++ r) = some (l, r) := by
  subst h
  unfold readBytes
  rw [if_pos (by simp)]
  rw [List.take_left, List.drop_left]

theorem le16_pair (a b : Nat) : le16 [a, b] = a + 256 * b := rfl

/-- C8: decoding a keyframe entry raises a decode error (not a silent skip)
whenever the 16-bit interpolation-type code is outside {0, 1, 2, 3}; for code
0 no Bezier tangent is read, for 1 only the previous tangent, for 2 only the
next tangent, for 3 both (src/dat2lta85.py:542-552). -/
theorem claim_C8 :
    (∀ (s : List Nat) (e : KFKeyEntry) (rest : List Nat),
      readKFKeyEntry s = .ok (e, rest) →
      (e.key_type = 0 ∧ e.bez_prev = none ∧ e.bez_next = none) ∨
      (e.key_type = 1 ∧ e.bez_prev.isSome = true ∧ e.bez_next = none) ∨
      (e.key_type = 2 ∧ e.bez_prev = none ∧ e.bez_next.isSome = true) ∨
      (e.key_type = 3 ∧ e.bez_prev.isSome = true ∧ e.bez_next.isSome = true)) ∧
    (∀ (k0 k1 nl cl : Nat) (pos rot ts rad tail : List Nat),
      pos.length = 12 → rot.length = 12 → ts.length = 4 → rad.length = 4 →
      4 ≤ k0 + 256 * k1 →
      readKFKeyEntry (k0 :: k1 :: nl :: cl :: (pos ++ (rot ++ (ts ++ (rad ++ tail))))) =
        .error (.unknownKeyType (k0 + 256 * k1))) := by
  constructor
  · intro s e rest h
    unfold readKFKeyEntry at h
    repeat' split at h
    all_goals try exact Except.noConfusion h
    all_goals injection h with h1
    all_goals injection h1 with h2 h3
    all_goals subst h2
    all_goals simp_all
  · intro k0 k1 nl cl pos rot ts rad tail hpos hrot hts hrad hk
    have h1 : readBytes 12 (pos ++ (rot ++ (ts ++ (rad ++ tail)))) =
        some (pos, rot ++ (ts ++ (rad ++ tail))) := readBytes_exact _ _ _ hpos
    have h2 : readBytes 12 (rot ++ (ts ++ (rad ++ tail))) =
        some (rot, ts ++ (rad ++ tail)) := readBytes_exact _ _ _ hrot
    have h3 : readBytes 4 (ts ++ (rad ++ tail)) = some (ts, rad ++ tail) :=
      readBytes_exact _ _ _ hts
    have h4 : readBytes 4 (rad ++ tail) = some (rad, tail) := readBytes_exact _ _ _ hrad
    unfold readKFKeyEntry
    simp only [readBytes_two, readBytes_one, h1, h2, h3, h4, le16_pair]
    rw [if_neg (by omega), if_neg (by omega), if_neg (by omega), if_neg (by omega)]

theorem claim_C8_witness :
    (kfKeyExEntry.key_type = 3 ∧ kfKeyExEntry.bez_prev.isSome = true ∧
      kfKeyExEntry.bez_next.isSome = true) ∧
    readKFKeyEntry (7 :: 0 :: 1 :: 0 :: (List.replicate 12 0 ++ (List.replicate 12 0 ++
        (List.replicate 4 0 ++ (List.replicate 4 0 ++ [65]))))) =
      .error (.unknownKeyType 7) := by
  constructor
  · have h := claim_C8.1 kfKeyEx3 kfKeyExEntry [] (by rfl)
    rcases h with h | h | h | h
    · exact absurd h.1 (by decide)
    · exact absurd h.1 (by decide)
    · exact absurd h.1 (by decide)
    · exact h
  · exact claim_C8.2 7 0 1 0 (List.replicate 12 0) (List.replicate 12 0) (List.replicate 4 0)
      (List.replicate 4 0) [65] (by decide) (by decide) (by decide) (by decide) (by decide)

theorem keptSections_mem_tris (tris : List Tri) (secs : List RNSection) :
    ∀ idx cursor, ∀ e ∈ keptSections tris secs idx cursor, ∀ t ∈ e.2.2, t ∈ tris := by
  induction secs with
  | nil => intro idx cursor e he; simp [keptSections] at he
  | cons s rest ih =>
    intro idx cursor e he
    by_cases hl : isLightanim s.tex0
    · rw [keptSections, if_pos hl] at he
      exact ih (idx + 1) (cursor + s.tri_count) e he
    · rw [keptSections, if_neg hl] at he
      rcases List.mem_cons.1 he with h1 | h1
      · subst h1
        intro t ht
        exact List.drop_subset cursor tris (List.take_subset _ _ ht)
      · exact ih (idx + 1) (cursor + s.tri_count) e h1

theorem keptSections_sum_le (tris : List Tri) (secs : List RNSection) :
    ∀ idx cursor,
      ((keptSections tris secs idx cursor).map (fun e => e.2.2.length)).sum ≤
        min (sectionTriSum secs) (tris.length - cursor) := by
  induction secs with
  | nil => intro idx cursor; simp [keptSections]
  | cons s rest ih =>
    intro idx cursor
    have hrest := ih (idx + 1) (cursor + s.tri_count)
    have hsum : sectionTriSum (s :: rest) = s.tri_count + sectionTriSum rest := by
      simp [sectionTriSum]
    by_cases hl : isLightanim s.tex0
    · rw [keptSections, if_pos hl]
      rw [hsum]
      omega
    · rw [keptSections, if_neg hl]
      rw [List.map_cons, List.sum_cons, hsum]
      have hslice : ((idx, s, (tris.drop cursor).take s.tri_count) :
          Nat × RNSection × List Tri).2.2.length = min s.tri_count (tris.length - cursor) := by
        simp [List.length_take, List.length_drop]
      omega

/-- C2: for every render node (top-level or world-model sub-node) the
declared-vs-decoded triangle count mismatch is recoverable: the run continues
with a logged warning, the reconstruction emits at most
`min(sum of section counts, decoded triangle count)` triangles, and every
emitted triangle comes from the decoded triangle buffer (Python slices clamp,
so no out-of-bounds read occurs).  (src/dat2lta85.py:1389-1407,
1532-1547.) -/
theorem claim_C2 (secs : List RNSection) (tris : List Tri) :
    (sectionTriSum secs ≠ tris.length → renderNodeTriWarn secs tris = true) ∧
    ((keptSections tris secs 0 0).map (fun e => e.2.2.length)).sum ≤
      min (sectionTriSum secs) tris.length ∧
    (∀ e ∈ keptSections tris secs 0 0, ∀ t ∈ e.2.2, t ∈ tris) := by
  refine ⟨?_, ?_, keptSections_mem_tris tris secs 0 0⟩
  · intro h
    simp [renderNodeTriWarn, h]
  · have := keptSections_sum_le tris secs 0 0
    simpa using this

theorem claim_C2_witness :
    renderNodeTriWarn c2exSecs c2exTris = true ∧
    Tri.mk 7 8 9 ∈ c2exTris := by
  refine ⟨(claim_C2 c2exSecs c2exTris).1 (by decide), ?_⟩
  exact (claim_C2 c2exSecs c2exTris).2.2 (1, ⟨strCodes ("roof"), 3⟩, [⟨7, 8, 9⟩])
    (by decide) ⟨7, 8, 9⟩ (by decide)

/-- Full characterization of the kept entries: every kept entry is a
non-lightanim section, carries its original index, and its slice starts at the
cumulative sum of the declared counts of ALL preceding sections (dropped ones
included). -/
theorem keptSections_char (tris : List Tri) (secs : List RNSection) :
    ∀ idx cursor, ∀ e ∈ keptSections tris secs idx cursor,
      isLightanim e.2.1.tex0 = false ∧
      ∃ k, ∃ h : k < secs.length, e.1 = idx + k ∧ e.2.1 = secs.get ⟨k, h⟩ ∧
        e.2.2 = (tris.drop (cursor + sectionTriSum (secs.take k))).take e.2.1.tri_count := by
  induction secs with
  | nil => intro idx cursor e he; simp [keptSections] at he
  | cons s rest ih =>
    intro idx cursor e he
    by_cases hl : isLightanim s.tex0
    · rw [keptSections, if_pos hl] at he
      obtain ⟨hnl, k, hk, h1, h2, h3⟩ := ih (idx + 1) (cursor + s.tri_count) e he
      refine ⟨hnl, k + 1, Nat.succ_lt_succ hk, by omega, by simpa using h2, ?_⟩
      rw [h3]
      have harg : cursor + s.tri_count + sectionTriSum (rest.take k) =
          cursor + sectionTriSum ((s :: rest).take (k + 1)) := by
        simp [sectionTriSum, List.take_succ_cons]
        omega
      rw [harg]
    · rw [keptSections, if_neg hl] at he
      rcases List.mem_cons.1 he with h1 | h1
      · subst h1
        refine ⟨by simpa using hl, 0, Nat.succ_pos _, by simp, by simp, ?_⟩
        simp [sectionTriSum]
      · obtain ⟨hnl, k, hk, hh1, hh2, hh3⟩ := ih (idx + 1) (cursor + s.tri_count) e h1
        refine ⟨hnl, k + 1, Nat.succ_lt_succ hk, by omega, by simpa using hh2, ?_⟩
        rw [hh3]
        have harg : cursor + s.tri_count + sectionTriSum (rest.take k) =
            cursor + sectionTriSum ((s :: rest).take (k + 1)) := by
          simp [sectionTriSum, List.take_succ_cons]
          omega
        rw [harg]

/-- C4: a section whose primary texture name (trimmed, case-insensitively)
equals the reserved marker `lightanim_base` is dropped completely - no kept
entry carries its index, so it contributes zero triangles and zero vertices to
every output primitive group - while every kept section's slice still starts
at the cumulative declared-count offset over ALL preceding sections, dropped
ones included (src/dat2lta85.py:1355-1362, 1393-1407). -/
theorem claim_C4 (secs : List RNSection) (tris : List Tri) (j : Nat) (hj : j < secs.length)
    (hlight : isLightanim (secs.get ⟨j, hj⟩).tex0 = true) :
    (∀ e ∈ keptSections tris secs 0 0, e.1 ≠ j) ∧
    (∀ e ∈ keptSections tris secs 0 0,
      isLightanim e.2.1.tex0 = false ∧
      e.2.2 = (tris.drop (sectionTriSum (secs.take e.1))).take e.2.1.tri_count) := by
  constructor
  · intro e he hej
    obtain ⟨hnl, k, hk, h1, h2, h3⟩ := keptSections_char tris secs 0 0 e he
    have hkj : k = j := by omega
    subst hkj
    rw [h2] at hnl
    have hget : (⟨k, hk⟩ : Fin secs.length) = ⟨k, hj⟩ := rfl
    rw [hget] at hnl
    rw [hnl] at hlight
    exact Bool.noConfusion hlight
  · intro e he
    obtain ⟨hnl, k, hk, h1, h2, h3⟩ := keptSections_char tris secs 0 0 e he
    refine ⟨hnl, ?_⟩
    rw [h3]
    have : e.1 = k := by omega
    rw [this]
    simp

theorem claim_C4_witness :
    (2, RNSection.mk (strCodes ("wood")) 1, [Tri.mk 5 5 5]) ∈
      keptSections c4exTris c4exSecs 0 0 ∧
    (2 : Nat) ≠ 1 ∧
    ([Tri.mk 5 5 5] : List Tri) =
      (c4exTris.drop (sectionTriSum (c4exSecs.take 2))).take 1 := by
  have h := claim_C4 c4exSecs c4exTris 1 (by decide) (by decide)
  refine ⟨by decide, ?_, ?_⟩
  · exact h.1 (2, ⟨strCodes ("wood"), 1⟩, [⟨5, 5, 5⟩]) (by decide)
  · have h2 := (h.2 (2, ⟨strCodes ("wood"), 1⟩, [⟨5, 5, 5⟩]) (by decide)).2
    simpa using h2

theorem enumPairs_append (l : List Nat) (a : Nat) :
    ∀ k, enumPairs (l ++ [a]) k = enumPairs l k ++ [(a, k + l.length)] := by
  induction l with
  | nil => intro k; simp [enumPairs]
  | cons b rest ih =>
    intro k
    have harith : k + 1 + rest.length = k + (rest.length + 1) := by omega
    simp [enumPairs, ih (k + 1), harith]

theorem enumPairs_lookup_isSome (l : List Nat) :
    ∀ k i, ((enumPairs l k).lookup i).isSome = true ↔ i ∈ l := by
  induction l with
  | nil => simp [enumPairs]
  | cons a rest ih =>
    intro k i
    by_cases hai : i = a
    · subst hai
      simp [enumPairs, List.lookup_cons]
    · have hb : (i == a) = false := beq_eq_false_iff_ne.2 hai
      simp [enumPairs, List.lookup_cons, hb, ih (k + 1) i, hai]

theorem enumPairs_lookup_lt (l : List Nat) :
    ∀ k i m, (enumPairs l k).lookup i = some m → k ≤ m ∧ m < k + l.length := by
  induction l with
  | nil => intro k i m h; simp [enumPairs] at h
  | cons a rest ih =>
    intro k i m h
    have hlen : (a :: rest).length = rest.length + 1 := List.length_cons a rest
    rw [enumPairs, List.lookup_cons] at h
    by_cases hai : (i == a) = true
    · rw [hai] at h
      simp only [cond_true, Option.some.injEq] at h
      omega
    · rw [Bool.not_eq_true] at hai
      rw [hai] at h
      simp only [cond_false] at h
      have := ih (k + 1) i m h
      omega

theorem enumPairs_map_snd (l : List Nat) :
    ∀ k, (enumPairs l k).map Prod.snd = List.range' k l.length := by
  induction l with
  | nil => intro k; simp [enumPairs]
  | cons a rest ih =>
    intro k
    simp [enumPairs, List.range'_succ, ih (k + 1)]

theorem addVertIdx_inv (st : List Nat × List (Nat × Nat)) (i : Nat)
    (h : st.2 = enumPairs st.1 0) :
    (addVertIdx st i).2 = enumPairs (addVertIdx st i).1 0 ∧
    (addVertIdx st i).1 = dedupStep st.1 i := by
  obtain ⟨lv, im⟩ := st
  simp only at h
  subst h
  unfold addVertIdx dedupStep
  by_cases hm : i ∈ lv
  · rw [if_pos (by simpa using (enumPairs_lookup_isSome lv 0 i).2 hm), if_pos hm]
    exact ⟨rfl, rfl⟩
  · have hns : ¬((enumPairs lv 0).lookup i).isSome = true := by
      rw [enumPairs_lookup_isSome lv 0 i]
      exact hm
    rw [if_neg (by simpa using hns), if_neg hm]
    refine ⟨?_, rfl⟩
    simp only
    rw [enumPairs_append]
    simp

theorem buildFold_inv (l : List Nat) :
    ∀ st : List Nat × List (Nat × Nat), st.2 = enumPairs st.1 0 →
      (l.foldl addVertIdx st).2 = enumPairs (l.foldl addVertIdx st).1 0 ∧
      (l.foldl addVertIdx st).1 = l.foldl dedupStep st.1 := by
  induction l with
  | nil => intro st h; exact ⟨h, rfl⟩
  | cons i rest ih =>
    intro st h
    rw [List.foldl_cons, List.foldl_cons]
    obtain ⟨h1, h2⟩ := addVertIdx_inv st i h
    obtain ⟨g1, g2⟩ := ih (addVertIdx st i) h1
    exact ⟨g1, by rw [g2, h2]⟩

theorem buildIndexMap_eq_flat (tris : List Tri) :
    buildIndexMap tris = (tris.flatMap triIdxs).foldl addVertIdx ([], []) := by
  unfold buildIndexMap
  have main : ∀ (l : List Tri) (st : List Nat × List (Nat × Nat)),
      l.foldl (fun st t => (triIdxs t).foldl addVertIdx st) st =
        (l.flatMap triIdxs).foldl addVertIdx st := by
    intro l
    induction l with
    | nil => intro st; simp
    | cons t rest ihl =>
      intro st
      rw [List.foldl_cons, List.flatMap_cons, List.foldl_append, ihl]
  exact main tris ([], [])

theorem firstEncounter_mem_fold (l : List Nat) :
    ∀ acc i, i ∈ l.foldl dedupStep acc ↔ i ∈ acc ∨ i ∈ l := by
  induction l with
  | nil => intro acc i; simp
  | cons a rest ih =>
    intro acc i
    rw [List.foldl_cons]
    by_cases ha : a ∈ acc
    · have hstep : dedupStep acc a = acc := by
        unfold dedupStep
        rw [if_pos ha]
      rw [hstep, ih]
      constructor
      · rintro (h | h)
        · exact Or.inl h
        · exact Or.inr (List.mem_cons_of_mem a h)
      · rintro (h | h)
        · exact Or.inl h
        · rcases List.mem_cons.1 h with h1 | h1
          · exact Or.inl (h1 ▸ ha)
          · exact Or.inr h1
    · have hstep : dedupStep acc a = acc ++ [a] := by
        unfold dedupStep
        rw [if_neg ha]
      rw [hstep, ih]
      constructor
      · rintro (h | h)
        · rcases List.mem_append.1 h with h1 | h1
          · exact Or.inl h1
          · exact Or.inr (List.mem_cons.2 (Or.inl (List.mem_singleton.1 h1)))
        · exact Or.inr (List.mem_cons_of_mem a h)
      · rintro (h | h)
        · exact Or.inl (List.mem_append.2 (Or.inl h))
        · rcases List.mem_cons.1 h with h1 | h1
          · exact Or.inl (List.mem_append.2 (Or.inr (List.mem_singleton.2 h1)))
          · exact Or.inr h1

/-- C5: for every retained group's triangle list, the local vertex list is
built in first-encounter order over the group's triangle indices, the
old-to-new index map is dense (its values are exactly `0..k-1` in order), and
every index of every remapped triangle is strictly below the local vertex
count (src/dat2lta85.py:1410-1420). -/
theorem claim_C5 (tris : List Tri) :
    (buildIndexMap tris).1 = firstEncounter (tris.flatMap triIdxs) ∧
    (buildIndexMap tris).2.map Prod.snd = List.range (buildIndexMap tris).1.length ∧
    (∀ t ∈ tris,
      (remapTri (buildIndexMap tris).2 t).i0 < (buildIndexMap tris).1.length ∧
      (remapTri (buildIndexMap tris).2 t).i1 < (buildIndexMap tris).1.length ∧
      (remapTri (buildIndexMap tris).2 t).i2 < (buildIndexMap tris).1.length) := by
  have hflat := buildIndexMap_eq_flat tris
  have hinv := buildFold_inv (tris.flatMap triIdxs) ([], []) rfl
  have h1 : (buildIndexMap tris).1 = firstEncounter (tris.flatMap triIdxs) := by
    rw [hflat]
    exact hinv.2
  have h2 : (buildIndexMap tris).2 = enumPairs (buildIndexMap tris).1 0 := by
    rw [hflat]
    exact hinv.1
  refine ⟨h1, ?_, ?_⟩
  · rw [h2, enumPairs_map_snd, List.range_eq_range']
  · intro t ht
    have hmem : ∀ i, i ∈ triIdxs t → i ∈ (buildIndexMap tris).1 := by
      intro i hi
      rw [h1]
      unfold firstEncounter
      rw [firstEncounter_mem_fold]
      exact Or.inr (List.mem_flatMap.2 ⟨t, ht, hi⟩)
    have hb : ∀ i, i ∈ triIdxs t →
        ((buildIndexMap tris).2.lookup i).getD 0 < (buildIndexMap tris).1.length := by
      intro i hi
      have hm := hmem i hi
      have hsome : ((buildIndexMap tris).2.lookup i).isSome = true := by
        rw [h2]
        exact (enumPairs_lookup_isSome _ 0 i).2 hm
      rcases hl : (buildIndexMap tris).2.lookup i with _ | m
      · rw [hl] at hsome
        exact Bool.noConfusion hsome
      · have hlt := enumPairs_lookup_lt (buildIndexMap tris).1 0 i m (by rw [← h2]; exact hl)
        simp only [hl, Option.getD_some]
        omega
    exact ⟨hb t.i0 (by simp [triIdxs]), hb t.i1 (by simp [triIdxs]), hb t.i2 (by simp [triIdxs])⟩

theorem claim_C5_witness :
    (buildIndexMap c5exTris).1 = [5, 7, 9] ∧
    (buildIndexMap c5exTris).2.map Prod.snd = List.range 3 ∧
    remapTri (buildIndexMap c5exTris).2 ⟨7, 9, 5⟩ = ⟨1, 2, 0⟩ ∧
    (remapTri (buildIndexMap c5exTris).2 ⟨7, 9, 5⟩).i0 < (buildIndexMap c5exTris).1.length := by
  exact ⟨by decide, by decide, by decide,
    ((claim_C5 c5exTris).2.2 ⟨7, 9, 5⟩ (by decide)).1⟩

theorem range'_glue (a m n : Nat) :
    List.range' a m ++ List.range' (a + m) n = List.range' a (m + n) := by
  rw [List.range'_append_1, Nat.add_comm]

theorem NodesOk_comp {f g : EmitState → EmitState}
    (hf : NodesOk f) (hg : NodesOk g) : NodesOk (fun s => g (f s)) := by
  intro s
  obtain ⟨k1, h1, h2⟩ := hf s
  obtain ⟨k2, g1, g2⟩ := hg (f s)
  refine ⟨k1 + k2, ?_, ?_⟩
  · rw [g1, h1, Nat.add_assoc]
  · rw [g2, h2, h1, List.append_assoc, range'_glue]

theorem NodesOk_id : NodesOk (fun s => s) := by
  intro s
  exact ⟨0, rfl, by simp⟩

theorem NodesOk_push (pid : Nat) : NodesOk (pushNode pid) := by
  intro s
  refine ⟨1, rfl, ?_⟩
  simp [nodeIds, pushNode, List.range'_one]

theorem NodesOk_emitBrush : NodesOk emitBrush := by
  intro s
  refine ⟨1, rfl, ?_⟩
  simp [nodeIds, emitBrush, pushNode, List.range'_one]

theorem NodesOk_emitPropNode : NodesOk emitPropNode := by
  intro s
  refine ⟨1, rfl, ?_⟩
  simp [nodeIds, emitPropNode, pushNode, List.range'_one]

theorem NodesOk_emitSharedBrush : NodesOk emitSharedBrush := by
  intro s
  refine ⟨1, rfl, ?_⟩
  simp [nodeIds, emitSharedBrush, pushNode, List.range'_one]

theorem NodesOk_propBump : NodesOk (fun s => { s with propid := s.propid + 1 }) := by
  intro s
  exact ⟨0, rfl, by simp [nodeIds]⟩

theorem NodesOk_emitBrushes (n : Nat) : NodesOk (emitBrushes n) := by
  induction n with
  | zero => exact NodesOk_id
  | succ n ih =>
    have h := NodesOk_comp NodesOk_emitBrush ih
    exact h

theorem NodesOk_emitPropNodes (n : Nat) : NodesOk (emitPropNodes n) := by
  induction n with
  | zero => exact NodesOk_id
  | succ n ih =>
    have h := NodesOk_comp NodesOk_emitPropNode ih
    exact h

theorem NodesOk_emitSharedBrushes (n : Nat) : NodesOk (emitSharedBrushes n) := by
  induction n with
  | zero => exact NodesOk_id
  | succ n ih =>
    have h := NodesOk_comp NodesOk_emitSharedBrush ih
    exact h

theorem NodesOk_emitRNBlock (counts : List Nat) : NodesOk (emitRNBlock counts) := by
  induction counts with
  | nil => exact NodesOk_id
  | cons c rest ih =>
    have h := NodesOk_comp (NodesOk_comp (NodesOk_push 0) (NodesOk_emitBrushes c)) ih
    exact h

theorem NodesOk_emitObjEntry (m : Option Nat) : NodesOk (fun s => emitObjEntry s m) := by
  cases m with
  | none => exact NodesOk_emitPropNode
  | some c =>
    have h := NodesOk_comp NodesOk_emitPropNode (NodesOk_emitBrushes c)
    exact h

theorem NodesOk_objFold (objs : List (Option Nat)) :
    NodesOk (fun s => objs.foldl emitObjEntry s) := by
  induction objs with
  | nil => exact NodesOk_id
  | cons m rest ih =>
    have h := NodesOk_comp (NodesOk_emitObjEntry m) ih
    exact h

theorem NodesOk_emitKFBlock (kf : List Nat) : NodesOk (emitKFBlock kf) := by
  induction kf with
  | nil => exact NodesOk_id
  | cons k rest ih =>
    have h := NodesOk_comp (NodesOk_comp (NodesOk_push 0) (NodesOk_emitPropNodes k)) ih
    exact h

theorem NodesOk_emitObjectsBlock (objs : List (Option Nat)) (kf : List Nat) :
    NodesOk (emitObjectsBlock objs kf) := by
  unfold emitObjectsBlock
  by_cases ho : 0 < objs.length
  · simp only [if_pos ho]
    by_cases hk : 0 < kf.length
    · simp only [if_pos hk]
      have h := NodesOk_comp (NodesOk_comp (NodesOk_push 0) (NodesOk_objFold objs))
        (NodesOk_emitKFBlock kf)
      exact h
    · simp only [if_neg hk]
      have h := NodesOk_comp (NodesOk_push 0) (NodesOk_objFold objs)
      exact h
  · simp only [if_neg ho]
    exact NodesOk_id

theorem NodesOk_emitSharedGroup (n : Nat) : NodesOk (emitSharedGroup n) := by
  unfold emitSharedGroup
  by_cases hn : 0 < n
  · simp only [if_pos hn]
    have h := NodesOk_comp (NodesOk_comp (NodesOk_push 0) (NodesOk_emitSharedBrushes n))
      NodesOk_propBump
    exact h
  · simp only [if_neg hn]
    exact NodesOk_id

theorem NodesOk_emitOccludersBlock (n : Nat) : NodesOk (emitOccludersBlock n) := by
  unfold emitOccludersBlock
  by_cases hn : 0 < n
  · simp only [if_pos hn]
    have h := NodesOk_comp (NodesOk_push 0) (NodesOk_emitBrushes n)
    exact h
  · simp only [if_neg hn]
    exact NodesOk_id

theorem NodesOk_hierarchy (sc : Scene) : ∃ k,
    (emitNodeHierarchy sc).nodeid = 1 + k ∧
    nodeIds (emitNodeHierarchy sc) = List.range' 1 k := by
  have hcomp : NodesOk (fun s =>
      emitSharedGroup sc.particleBlockers
        (emitSharedGroup sc.blockers
          (emitOccludersBlock sc.occluders
            (emitSharedGroup sc.skyportals
              (emitObjectsBlock sc.objects sc.kfKeys
                (emitRNBlock sc.rnBrushCounts
                  (pushNode 0 (pushNode 0 s)))))))) := by
    have h := NodesOk_comp (NodesOk_comp (NodesOk_comp (NodesOk_comp (NodesOk_comp
      (NodesOk_comp (NodesOk_comp (NodesOk_push 0) (NodesOk_push 0))
        (NodesOk_emitRNBlock sc.rnBrushCounts))
      (NodesOk_emitObjectsBlock sc.objects sc.kfKeys))
      (NodesOk_emitSharedGroup sc.skyportals))
      (NodesOk_emitOccludersBlock sc.occluders))
      (NodesOk_emitSharedGroup sc.blockers))
      (NodesOk_emitSharedGroup sc.particleBlockers)
    exact h
  obtain ⟨k, h1, h2⟩ := hcomp ⟨1, 1, 0, []⟩
  exact ⟨k, h1, by simpa [nodeIds] using h2⟩

theorem nzOf_append (l1 l2 : List (Nat × Nat)) : nzOf (l1 ++ l2) = nzOf l1 ++ nzOf l2 := by
  simp [nzOf]

theorem NzOk_comp {f g : EmitState → EmitState} {d1 d2 : Nat} {c1 c2 : Nat → List Nat}
    (hf : NzOk f d1 c1) (hg : NzOk g d2 c2) :
    NzOk (fun s => g (f s)) (d1 + d2) (fun p => c1 p ++ c2 (p + d1)) := by
  intro s hs
  obtain ⟨h1, h2⟩ := hf s hs
  obtain ⟨g1, g2⟩ := hg (f s) (by omega)
  constructor
  · rw [g1, h1, Nat.add_assoc]
  · rw [g2, h2, h1, List.append_assoc]

theorem NzOk_congr {f : EmitState → EmitState} {d d' : Nat} {c c' : Nat → List Nat}
    (h : NzOk f d c) (hd : d = d') (hc : ∀ p, c p = c' p) : NzOk f d' c' := by
  intro s hs
  obtain ⟨h1, h2⟩ := h s hs
  exact ⟨by rw [h1, hd], by rw [h2, hc]⟩

theorem NzOk_id : NzOk (fun s => s) 0 (fun _ => []) := by
  intro s hs
  exact ⟨rfl, by simp⟩

theorem NzOk_push0 : NzOk (pushNode 0) 0 (fun _ => []) := by
  intro s hs
  refine ⟨rfl, ?_⟩
  rw [show (pushNode 0 s).nodes = s.nodes ++ [(s.nodeid, 0)] from rfl, nzOf_append]
  simp [nzOf]

theorem NzOk_emitBrush : NzOk emitBrush 1 (fun p => [p]) := by
  intro s hs
  refine ⟨rfl, ?_⟩
  rw [show (emitBrush s).nodes = s.nodes ++ [(s.nodeid, s.propid)] from rfl, nzOf_append]
  have hne : (s.propid != 0) = true := by
    simp only [bne_iff_ne, ne_eq]
    omega
  simp [nzOf, hne]

theorem NzOk_emitPropNode : NzOk emitPropNode 1 (fun p => [p]) := by
  intro s hs
  refine ⟨rfl, ?_⟩
  rw [show (emitPropNode s).nodes = s.nodes ++ [(s.nodeid, s.propid)] from rfl, nzOf_append]
  have hne : (s.propid != 0) = true := by
    simp only [bne_iff_ne, ne_eq]
    omega
  simp [nzOf, hne]

theorem NzOk_emitSharedBrush : NzOk emitSharedBrush 0 (fun p => [p]) := by
  intro s hs
  refine ⟨rfl, ?_⟩
  rw [show (emitSharedBrush s).nodes = s.nodes ++ [(s.nodeid, s.propid)] from rfl, nzOf_append]
  have hne : (s.propid != 0) = true := by
    simp only [bne_iff_ne, ne_eq]
    omega
  simp [nzOf, hne]

theorem NzOk_propBump : NzOk (fun s => { s with propid := s.propid + 1 }) 1 (fun _ => []) := by
  intro s hs
  exact ⟨rfl, by simp⟩

theorem NzOk_emitBrushes (n : Nat) : NzOk (emitBrushes n) n (fun p => List.range' p n) := by
  induction n with
  | zero =>
    exact NzOk_congr NzOk_id rfl (fun p => by simp)
  | succ n ih =>
    have h := NzOk_comp NzOk_emitBrush ih
    refine NzOk_congr h (by omega) ?_
    intro p
    rw [List.range'_succ]
    simp

theorem NzOk_emitPropNodes (n : Nat) : NzOk (emitPropNodes n) n (fun p => List.range' p n) := by
  induction n with
  | zero =>
    exact NzOk_congr NzOk_id rfl (fun p => by simp)
  | succ n ih =>
    have h := NzOk_comp NzOk_emitPropNode ih
    refine NzOk_congr h (by omega) ?_
    intro p
    rw [List.range'_succ]
    simp

theorem NzOk_emitSharedBrushes (n : Nat) :
    NzOk (emitSharedBrushes n) 0 (fun p => List.replicate n p) := by
  induction n with
  | zero =>
    exact NzOk_congr NzOk_id rfl (fun p => by simp)
  | succ n ih =>
    have h := NzOk_comp NzOk_emitSharedBrush ih
    refine NzOk_congr h rfl ?_
    intro p
    rw [List.replicate_succ]
    simp

theorem NzOk_emitRNBlock (counts : List Nat) :
    NzOk (emitRNBlock counts) counts.sum (fun p => List.range' p counts.sum) := by
  induction counts with
  | nil =>
    exact NzOk_congr NzOk_id (by simp) (fun p => by simp)
  | cons c rest ih =>
    have h := NzOk_comp (NzOk_comp NzOk_push0 (NzOk_emitBrushes c)) ih
    refine NzOk_congr h (by simp) ?_
    intro p
    simp only [List.nil_append, Nat.zero_add, List.sum_cons, Nat.add_zero]
    rw [range'_glue]

theorem NzOk_emitObjEntry (m : Option Nat) :
    NzOk (fun s => emitObjEntry s m) (objEntryDelta m)
      (fun p => List.range' p (objEntryDelta m)) := by
  cases m with
  | none =>
    exact NzOk_congr NzOk_emitPropNode rfl (fun p => by simp [objEntryDelta, List.range'_one])
  | some c =>
    have h := NzOk_comp NzOk_emitPropNode (NzOk_emitBrushes c)
    refine NzOk_congr h rfl ?_
    intro p
    show [p] ++ List.range' (p + 1) c = List.range' p (1 + c)
    rw [show ([p] : List Nat) = List.range' p 1 from (List.range'_one).symm, range'_glue]

theorem NzOk_objFold (objs : List (Option Nat)) :
    NzOk (fun s => objs.foldl emitObjEntry s) (objDelta objs)
      (fun p => List.range' p (objDelta objs)) := by
  induction objs with
  | nil => exact NzOk_congr NzOk_id (by simp [objDelta]) (fun p => by simp [objDelta])
  | cons m rest ih =>
    have h := NzOk_comp (NzOk_emitObjEntry m) ih
    refine NzOk_congr h (by simp [objDelta]) ?_
    intro p
    simp only [objDelta, List.map_cons, List.sum_cons]
    rw [range'_glue]

theorem NzOk_emitKFBlock (kf : List Nat) :
    NzOk (emitKFBlock kf) kf.sum (fun p => List.range' p kf.sum) := by
  induction kf with
  | nil => exact NzOk_congr NzOk_id (by simp) (fun p => by simp)
  | cons k rest ih =>
    have h := NzOk_comp (NzOk_comp NzOk_push0 (NzOk_emitPropNodes k)) ih
    refine NzOk_congr h (by simp) ?_
    intro p
    simp only [List.nil_append, Nat.zero_add, Nat.add_zero, List.sum_cons]
    rw [range'_glue]

theorem NzOk_emitObjectsBlock (objs : List (Option Nat)) (kf : List Nat) :
    NzOk (emitObjectsBlock objs kf) (objBlockDelta objs kf)
      (fun p => List.range' p (objBlockDelta objs kf)) := by
  unfold emitObjectsBlock objBlockDelta
  by_cases ho : 0 < objs.length
  · simp only [if_pos ho]
    by_cases hk : 0 < kf.length
    · simp only [if_pos hk]
      have h := NzOk_comp (NzOk_comp NzOk_push0 (NzOk_objFold objs)) (NzOk_emitKFBlock kf)
      refine NzOk_congr h (by omega) ?_
      intro p
      simp only [List.nil_append, Nat.zero_add, Nat.add_zero]
      rw [range'_glue]
    · simp only [if_neg hk]
      have hkf : kf.sum = 0 := by
        have hnil : kf = [] := List.length_eq_zero.1 (by omega)
        simp [hnil]
      have h := NzOk_comp NzOk_push0 (NzOk_objFold objs)
      refine NzOk_congr h (by omega) ?_
      intro p
      simp [hkf]
  · simp only [if_neg ho]
    exact NzOk_congr NzOk_id rfl (fun p => by simp)

theorem NzOk_emitSharedGroup (n : Nat) :
    NzOk (emitSharedGroup n) (if 0 < n then 1 else 0)
      (fun p => if 0 < n then List.replicate n p else []) := by
  unfold emitSharedGroup
  by_cases hn : 0 < n
  · simp only [if_pos hn]
    have h := NzOk_comp (NzOk_comp NzOk_push0 (NzOk_emitSharedBrushes n)) NzOk_propBump
    refine NzOk_congr h (by omega) ?_
    intro p
    simp
  · simp only [if_neg hn]
    exact NzOk_congr NzOk_id rfl (fun p => by simp)

theorem NzOk_emitOccludersBlock (n : Nat) :
    NzOk (emitOccludersBlock n) n (fun p => List.range' p n) := by
  unfold emitOccludersBlock
  by_cases hn : 0 < n
  · simp only [if_pos hn]
    have h := NzOk_comp NzOk_push0 (NzOk_emitBrushes n)
    refine NzOk_congr h (by omega) ?_
    intro p
    simp
  · simp only [if_neg hn]
    have hn0 : n = 0 := by omega
    subst hn0
    exact NzOk_congr NzOk_id rfl (fun p => by simp)

theorem nzOf_nil : nzOf [] = [] := rfl

theorem hierarchy_propid_nz (sc : Scene) :
    (emitNodeHierarchy sc).propid =
      1 + (((sc.rnBrushCounts.sum + objBlockDelta sc.objects sc.kfKeys +
        if 0 < sc.skyportals then 1 else 0) + sc.occluders +
        if 0 < sc.blockers then 1 else 0) +
        if 0 < sc.particleBlockers then 1 else 0) ∧
    nzOf (emitNodeHierarchy sc).nodes = nzExpected sc := by
  have h := NzOk_comp (NzOk_comp (NzOk_comp (NzOk_comp (NzOk_comp (NzOk_comp
      (NzOk_comp NzOk_push0 NzOk_push0) (NzOk_emitRNBlock sc.rnBrushCounts))
      (NzOk_emitObjectsBlock sc.objects sc.kfKeys))
      (NzOk_emitSharedGroup sc.skyportals))
      (NzOk_emitOccludersBlock sc.occluders))
      (NzOk_emitSharedGroup sc.blockers))
      (NzOk_emitSharedGroup sc.particleBlockers)
  obtain ⟨hp, hnz⟩ := h ⟨1, 1, 0, []⟩ (by norm_num)
  constructor
  · have hcast : (emitNodeHierarchy sc).propid = _ := hp
    simp only [Nat.zero_add, Nat.add_zero] at hcast
    exact hcast
  · have hcast : nzOf (emitNodeHierarchy sc).nodes = _ := hnz
    simp only [Nat.zero_add, Nat.add_zero, List.nil_append, nzOf_nil] at hcast
    exact hcast

theorem len_flatMap_replicate {α : Type} (x : α) (counts : List Nat) :
    (counts.flatMap (fun c => List.replicate c x)).length = counts.sum := by
  induction counts with
  | nil => rfl
  | cons c rest ih => simp [List.flatMap_cons, ih]

theorem len_obj_flatMap (objs : List (Option Nat)) :
    (objs.flatMap (fun m => PropEntry.objectProps ::
      (match m with
       | some c => List.replicate c PropEntry.wmSection
       | none => []))).length = objDelta objs := by
  induction objs with
  | nil => rfl
  | cons m rest ih =>
    rw [List.flatMap_cons, List.length_append, ih]
    cases m with
    | none => simp [objDelta, objEntryDelta]
    | some c =>
      simp [objDelta, objEntryDelta]
      omega

theorem emitGlobalPropList_length (sc : Scene) :
    (emitGlobalPropList sc).length =
      1 + sc.rnBrushCounts.sum + objDelta sc.objects + sc.kfKeys.sum +
      (if 0 < sc.skyportals then 1 else 0) + sc.occluders +
      (if 0 < sc.blockers then 1 else 0) + (if 0 < sc.particleBlockers then 1 else 0) := by
  unfold emitGlobalPropList
  simp only [List.length_append, len_flatMap_replicate, len_obj_flatMap, List.length_replicate,
    List.length_cons, List.length_nil]
  by_cases h1 : 0 < sc.skyportals <;> by_cases h2 : 0 < sc.blockers <;>
    by_cases h3 : 0 < sc.particleBlockers <;>
    simp [h1, h2, h3] <;> omega

/-- C1 (amended): across a full export run the structural-node ids are
strictly increasing from 1 and never reused; the emitted nonzero property ids
are nondecreasing and strictly increasing EXCEPT that all sky-portal brush
nodes share one propid, all blocker brush nodes share one, and all
particle-blocker brush nodes share one (matching their single shared
global-proplist entries, `nzExpected`); and - provided the scene has at least
one world object or no keyframer keys (the source emits keyframer key nodes
only inside the objects block, src/dat2lta85.py:1723, 1778) - the number of
property-list entries emitted in the global property list (the leading empty
entry that pairs with propid 0 included) equals the final value of the propid
counter, a one-to-one correspondence between entries and distinct assigned
propid values. -/
theorem claim_C1 (sc : Scene) :
    nodeIds (emitNodeHierarchy sc) = List.range' 1 (emitNodeHierarchy sc).nodes.length ∧
    nzOf (emitNodeHierarchy sc).nodes = nzExpected sc ∧
    ((0 < sc.objects.length ∨ sc.kfKeys.sum = 0) →
      (emitGlobalPropList sc).length = (emitNodeHierarchy sc).propid) := by
  obtain ⟨k, hk1, hk2⟩ := NodesOk_hierarchy sc
  have hlen : (emitNodeHierarchy sc).nodes.length = k := by
    have hmap : (nodeIds (emitNodeHierarchy sc)).length = k := by
      rw [hk2]
      simp
    simpa [nodeIds] using hmap
  obtain ⟨hp, hnz⟩ := hierarchy_propid_nz sc
  refine ⟨by rw [hlen]; exact hk2, hnz, ?_⟩
  intro hcond
  rw [emitGlobalPropList_length, hp]
  unfold objBlockDelta
  by_cases hobj : 0 < sc.objects.length
  · rw [if_pos hobj]
    generalize (if 0 < sc.skyportals then 1 else 0) = sd
    generalize (if 0 < sc.blockers then 1 else 0) = bd
    generalize (if 0 < sc.particleBlockers then 1 else 0) = pd
    omega
  · rw [if_neg hobj]
    have hkf : sc.kfKeys.sum = 0 := by
      rcases hcond with h | h
      · exact absurd h hobj
      · exact h
    have hod : objDelta sc.objects = 0 := by
      have hnil : sc.objects = [] := List.length_eq_zero.1 (by omega)
      simp [objDelta, hnil]
    rw [hkf, hod]
    generalize (if 0 < sc.skyportals then 1 else 0) = sd
    generalize (if 0 < sc.blockers then 1 else 0) = bd
    generalize (if 0 < sc.particleBlockers then 1 else 0) = pd
    omega

/-- C1 as stated is false: in a scene with two sky portals, the two sky-portal
brush nodes are distinct structural nodes carrying the SAME nonzero propid
(`base_propid` is advanced only after the sky-portal loop,
src/dat2lta85.py:1830, 1835), and the number of non-empty global-proplist
entries (one shared entry for all sky portals) differs from the number of
structural nodes requiring a propid (two). -/
theorem claim_C1_counterexample :
    ¬ List.Pairwise (fun a b => a.2 ≠ 0 → b.2 ≠ 0 → a.2 ≠ b.2)
        (emitNodeHierarchy cexScene).nodes ∧
    ((emitNodeHierarchy cexScene).nodes.filter (fun e => e.2 != 0)).length ≠
      (emitGlobalPropList cexScene).length - 1 := by
  decide

theorem claim_C1_witness :
    (0 < scn3.objects.length ∨ scn3.kfKeys.sum = 0) ∧
    (emitGlobalPropList scn3).length = (emitNodeHierarchy scn3).propid ∧
    (emitGlobalPropList scn3).length = 4 ∧
    nodeIds (emitNodeHierarchy scn3) = List.range' 1 (emitNodeHierarchy scn3).nodes.length ∧
    nzOf (emitNodeHierarchy scn3).nodes = [1, 2, 3] := by
  refine ⟨Or.inl (by decide), (claim_C1 scn3).2.2 (Or.inl (by decide)), by decide,
    (claim_C1 scn3).1, by decide⟩
